import Mathlib

/-!
Verification development for the bruno collection importer
(src/packages/grafnode-components/src/components/RequestHeaders/index.js).

The source file concatenates three revisions; the live importer is the last
one (RAML tree walker plus OpenAPI helper functions).  We shallowly embed the
importer over a model of JavaScript values (`JsVal`): YAML documents, the
produced collection trees and every intermediate object are `JsVal`s, so that
key presence/absence and JS truthiness are observable.  The external uid
generator (`uuid` from utils/common) is modelled as a function from a
call counter, threaded explicitly; code paths where JavaScript would throw a
TypeError (member access on null/undefined, calling a missing method) are
modelled with `Except Unit`.
-/

/-- Model of a JavaScript/JSON value as produced by YAML parsing. -/
inductive JsVal where
  | undefined : JsVal
  | null : JsVal
  | bool (b : Bool) : JsVal
  | num (n : Int) : JsVal
  | str (s : String) : JsVal
  | arr (elems : List JsVal) : JsVal
  | obj (fields : List (String × JsVal)) : JsVal
  deriving Repr

mutual
def JsVal.beq : JsVal → JsVal → Bool
  | .undefined, .undefined => true
  | .null, .null => true
  | .bool a, .bool b => a == b
  | .num a, .num b => a == b
  | .str a, .str b => a == b
  | .arr a, .arr b => JsVal.beqList a b
  | .obj a, .obj b => JsVal.beqFields a b
  | _, _ => false
def JsVal.beqList : List JsVal → List JsVal → Bool
  | [], [] => true
  | a :: as, b :: bs => JsVal.beq a b && JsVal.beqList as bs
  | _, _ => false
def JsVal.beqFields : List (String × JsVal) → List (String × JsVal) → Bool
  | [], [] => true
  | (k, v) :: as, (l, w) :: bs => k == l && JsVal.beq v w && JsVal.beqFields as bs
  | _, _ => false
end

theorem JsVal.beq_correct : ∀ a b : JsVal, (JsVal.beq a b = true ↔ a = b) := by
  refine JsVal.beq.induct
    (fun a b => JsVal.beq a b = true ↔ a = b)
    (fun as bs => JsVal.beqFields as bs = true ↔ as = bs)
    (fun as bs => JsVal.beqList as bs = true ↔ as = bs)
    ?_ ?_ ?_ ?_ ?_ ?_ ?_ ?_ ?_ ?_ ?_ ?_ ?_ ?_
  all_goals intros
  all_goals try (simp_all [JsVal.beq, JsVal.beqList, JsVal.beqFields]; done)
  case refine_8 a b h1 h2 h3 h4 h5 h6 h7 =>
    cases a <;> cases b <;> simp_all [JsVal.beq]
  case refine_11 a b h1 h2 =>
    cases a <;> cases b
    case nil.nil => exact (h1 rfl rfl).elim
    case nil.cons => simp [JsVal.beqList]
    case cons.nil => simp [JsVal.beqList]
    case cons.cons x xs y ys => exact (h2 x xs y ys rfl rfl).elim
  case refine_14 a b h1 h2 =>
    cases a <;> cases b
    case nil.nil => exact (h1 rfl rfl).elim
    case nil.cons => simp [JsVal.beqFields]
    case cons.nil => simp [JsVal.beqFields]
    case cons.cons x xs y ys => exact (h2 _ _ _ _ _ _ rfl rfl).elim

instance : DecidableEq JsVal := fun a b =>
  decidable_of_iff (JsVal.beq a b = true) (JsVal.beq_correct a b)

instance {e a : Type} [DecidableEq e] [DecidableEq a] : DecidableEq (Except e a) :=
  fun x y =>
    match x, y with
    | .ok u, .ok w => if h : u = w then isTrue (by rw [h]) else isFalse (by simp [h])
    | .error u, .error w =>
        if h : u = w then isTrue (by rw [h]) else isFalse (by simp [h])
    | .ok _, .error _ => isFalse (by simp)
    | .error _, .ok _ => isFalse (by simp)

/-! ### Character-level string operations

The Lean core String functions startsWith, splitOn, toUpper, toLower, trim,
replace, toNat? and the order on String are implemented over byte positions
and do not reduce in the kernel, so the embedding uses character-list
equivalents throughout; each mirrors the JS method named in its comment. -/

/-- JS s.startsWith(p). -/
def strStartsWith (s p : String) : Bool := List.isPrefixOf p.toList s.toList

/-- Lexicographic comparison of char lists (JS string <=). -/
def charListLe : List Char → List Char → Bool
  | [], _ => true
  | _ :: _, [] => false
  | a :: as, b :: bs => if a = b then charListLe as bs else decide (a < b)

/-- JS a <= b on strings. -/
def strLe (a b : String) : Bool := charListLe a.toList b.toList

/-- JS s.split(c) with a one-character separator. -/
def splitOnCharAux (c : Char) : List Char → List Char → List String
  | [], acc => [String.mk acc.reverse]
  | x :: rest, acc =>
      if x = c then String.mk acc.reverse :: splitOnCharAux c rest []
      else splitOnCharAux c rest (x :: acc)

/-- JS s.split(c). -/
def splitOnChar (c : Char) (s : String) : List String := splitOnCharAux c s.toList []

/-- Strip a prefix, returning the remainder on a match. -/
def stripPfx : List Char → List Char → Option (List Char)
  | [], l => some l
  | _ :: _, [] => none
  | p :: ps, c :: cs => if p = c then stripPfx ps cs else none

/-- JS s.replaceAll(pat, rep) on character lists (non-overlapping, left to
right).  The fuel is the input length, which always suffices because every
step consumes at least one character (the pattern is never empty in the
importer). -/
def replaceAllChars (pat rep : List Char) : Nat → List Char → List Char
  | 0, l => l
  | _ + 1, [] => []
  | f + 1, c :: rest =>
      match stripPfx pat (c :: rest) with
      | some tail =>
          if pat.isEmpty then c :: rest
          else rep ++ replaceAllChars pat rep f tail
      | none => c :: replaceAllChars pat rep f rest

/-- JS s.replaceAll(pat, rep). -/
def strReplace (s pat rep : String) : String :=
  String.mk (replaceAllChars pat.toList rep.toList s.toList.length s.toList)

/-- JS s.toUpperCase() (ASCII, as used on method names). -/
def strToUpper (s : String) : String := String.mk (s.toList.map Char.toUpper)

/-- JS s.toLowerCase() (ASCII, as used on RAML keys). -/
def strToLower (s : String) : String := String.mk (s.toList.map Char.toLower)

/-- JS s.trim(). -/
def strTrim (s : String) : String :=
  String.mk (((s.toList.dropWhile Char.isWhitespace).reverse.dropWhile
    Char.isWhitespace).reverse)

/-- Digit run to number. -/
def digitsToNat (l : List Char) : Nat :=
  l.foldl (fun acc c => acc * 10 + (c.toNat - 48)) 0

/-- Parse an all-digit string (the char-level String.toNat?). -/
def strToNat? (s : String) : Option Nat :=
  if s.toList ≠ [] ∧ s.toList.all Char.isDigit then some (digitsToNat s.toList)
  else none

/-- JavaScript truthiness of a value. -/
def jsTruthy : JsVal → Bool
  | .undefined => false
  | .null => false
  | .bool b => b
  | .num n => n != 0
  | .str s => s != ""
  | .arr _ => true
  | .obj _ => true

/-- The expression `a || b`. -/
def jsOrV (a b : JsVal) : JsVal := if jsTruthy a then a else b

/-- A value is null or undefined (member access on it throws a TypeError). -/
def jsNullish : JsVal → Bool
  | .null => true
  | .undefined => true
  | _ => false

/-- First binding of a key in an object field list. -/
def jsFieldLookup : List (String × JsVal) → String → Option JsVal
  | [], _ => none
  | (k, v) :: rest, key => if k == key then some v else jsFieldLookup rest key

/-- A string is a canonical array-index property key
(all digits, no leading zero, below 2^32 - 1). -/
def isArrayIdxKey (s : String) : Bool :=
  s.length > 0 && s.toList.all Char.isDigit &&
    (s == "0" || !(strStartsWith s "0")) &&
    (s.length < 10 || (s.length == 10 && strLe s "4294967294"))

/-- Numeric value of an array-index property key. -/
def jsPropIdx (k : String) : Option Nat :=
  if isArrayIdxKey k then strToNat? k else none

/-- Property read `v[k]` for a non-nullish receiver: object own properties,
array indices and length, string indices and length; primitives have no
relevant own properties.  Member access on null/undefined is modelled
separately (`jsNullish` guard) because JS throws there. -/
def jsProp : JsVal → String → JsVal
  | .obj fields, k => (jsFieldLookup fields k).getD .undefined
  | .arr xs, k =>
      if k == "length" then .num xs.length
      else match jsPropIdx k with
        | some i => xs.getD i .undefined
        | none => .undefined
  | .str s, k =>
      if k == "length" then .num s.length
      else match jsPropIdx k with
        | some i =>
            match s.toList[i]? with
            | some c => .str (String.singleton c)
            | none => .undefined
        | none => .undefined
  | _, _ => .undefined

/-- Replace the first binding of a key, or append a new one (JS property write
on an object). -/
def jsFieldSet : List (String × JsVal) → String → JsVal → List (String × JsVal)
  | [], k, v => [(k, v)]
  | (k2, v2) :: rest, k, v =>
      if k2 == k then (k2, v) :: rest else (k2, v2) :: jsFieldSet rest k v

/-- Property write `o[k] = v`; only ever applied to objects in the importer. -/
def jsSet : JsVal → String → JsVal → JsVal
  | .obj fields, k, v => .obj (jsFieldSet fields k v)
  | x, _, _ => x

/-- Ordering used by JS for integer-like own keys: numeric ascending, which
for canonical index keys is length-then-lexicographic order. -/
def jsIdxKeyLe (a b : String) : Bool :=
  Nat.blt a.length b.length || (a.length == b.length && strLe a b)

def insertIdxKey {α : Type} (x : String × α) : List (String × α) → List (String × α)
  | [] => [x]
  | y :: ys => if jsIdxKeyLe x.1 y.1 then x :: y :: ys else y :: insertIdxKey x ys

def sortIdxKeys {α : Type} : List (String × α) → List (String × α)
  | [] => []
  | x :: xs => insertIdxKey x (sortIdxKeys xs)

/-- JS own-property enumeration order on an object's fields: integer-like keys
first in ascending numeric order, then the remaining keys in insertion order. -/
def jsOrderFields {α : Type} (fields : List (String × α)) : List (String × α) :=
  sortIdxKeys (fields.filter (fun kv => isArrayIdxKey kv.1)) ++
    fields.filter (fun kv => !isArrayIdxKey kv.1)

theorem insertIdxKey_perm {α : Type} (x : String × α) (l : List (String × α)) :
    (insertIdxKey x l).Perm (x :: l) := by
  induction l with
  | nil => simp [insertIdxKey]
  | cons y ys ih =>
      simp only [insertIdxKey]
      split
      · exact List.Perm.refl _
      · exact ((ih.cons y).trans (List.Perm.swap x y ys))

theorem sortIdxKeys_perm {α : Type} (l : List (String × α)) : (sortIdxKeys l).Perm l := by
  induction l with
  | nil => simp [sortIdxKeys]
  | cons x xs ih => exact (insertIdxKey_perm x (sortIdxKeys xs)).trans (ih.cons x)

theorem jsOrderFields_perm {α : Type} (fields : List (String × α)) :
    (jsOrderFields fields).Perm fields := by
  unfold jsOrderFields
  exact ((sortIdxKeys_perm _).append (List.Perm.refl _)).trans
    (List.filter_append_perm _ fields)

theorem perm_sizeOf_eq {α : Type} [SizeOf α] {l1 l2 : List α} (h : l1.Perm l2) :
    sizeOf l1 = sizeOf l2 := by
  induction h with
  | nil => rfl
  | cons x _ ih => simp [ih]
  | swap x y l => simp; omega
  | trans _ _ ih1 ih2 => exact ih1.trans ih2

theorem jsOrderFields_sizeOf (fields : List (String × JsVal)) :
    sizeOf (jsOrderFields fields) = sizeOf fields :=
  perm_sizeOf_eq (jsOrderFields_perm fields)

/-- Object.entries / lodash each enumeration of a value: object fields in JS
key order, array elements and string characters under their index keys,
nothing for other primitives.  Callers guard the null/undefined case, where
Object.entries throws. -/
def jsEntries : JsVal → List (String × JsVal)
  | .obj fields => jsOrderFields fields
  | .arr xs => (xs.enum).map (fun p => (toString p.1, p.2))
  | .str s => (s.toList.enum).map (fun p => (toString p.1, .str (String.singleton p.2)))
  | _ => []

/-- Object.keys of a value (same enumeration as `jsEntries`). -/
def jsKeys (v : JsVal) : List String := (jsEntries v).map Prod.fst

mutual
/-- Computable node count of a value, used as recursion fuel for the walkers
(any fuel at least this large gives the JS behaviour). -/
def jsSize : JsVal → Nat
  | .obj fields => 1 + jsSizeFields fields
  | .arr xs => 1 + jsSizeList xs
  | _ => 1
def jsSizeFields : List (String × JsVal) → Nat
  | [] => 1
  | (_, v) :: rest => 1 + jsSize v + jsSizeFields rest
def jsSizeList : List JsVal → Nat
  | [] => 1
  | v :: rest => 1 + jsSize v + jsSizeList rest
end

mutual
/-- JS ToString coercion, as used by string concatenation and property keys. -/
def jsToString : JsVal → String
  | .undefined => "undefined"
  | .null => "null"
  | .bool b => cond b "true" "false"
  | .num n => toString n
  | .str s => s
  | .arr xs => String.intercalate "," (jsToStringArrElems xs)
  | .obj _ => "[object Object]"
def jsToStringArrElems : List JsVal → List String
  | [] => []
  | .undefined :: rest => "" :: jsToStringArrElems rest
  | .null :: rest => "" :: jsToStringArrElems rest
  | x :: rest => jsToString x :: jsToStringArrElems rest
end

/-! ## Shared URL / path helpers of the importer -/

mutual
/-- Character-level rendering of the regex replace
`url.replace(/([^:]\/)\/+/g, "$1")`.  Each maximal run of slashes collapses to
one slash when the preceding character exists and is not a colon, and to at
most two slashes when it is preceded by a colon or starts the string (the
first slash of the run then plays the non-colon role in the pattern). -/
def ensureUrlGo (prev : Option Char) : List Char → List Char
  | [] => []
  | '/' :: rest =>
      match prev with
      | some c => if c = ':' then '/' :: ensureUrlRun2 rest else '/' :: ensureUrlSkip rest
      | none => '/' :: ensureUrlRun2 rest
  | c :: rest => c :: ensureUrlGo (some c) rest
/-- Inside a colon- or start-preceded run after one emitted slash: keep at
most one more. -/
def ensureUrlRun2 : List Char → List Char
  | [] => []
  | '/' :: rest => '/' :: ensureUrlSkip rest
  | c :: rest => c :: ensureUrlGo (some c) rest
/-- Drop the remaining slashes of the current run. -/
def ensureUrlSkip : List Char → List Char
  | [] => []
  | '/' :: rest => ensureUrlSkip rest
  | c :: rest => c :: ensureUrlGo (some c) rest
end

/-- The importer's ensureUrl: collapse duplicate slashes not preceded by a colon. -/
def ensureUrl (url : String) : String := String.mk (ensureUrlGo none url.toList)

/-- The importer's ensureUriParameter: double every brace in a path segment. -/
def ensureUriParameter (uriParam : String) : String :=
  strReplace (strReplace uriParam "\x7b" "\x7b\x7b") "\x7d" "\x7d\x7d"

/-- The importer's buildApiName. -/
def buildApiName (method path : String) : String :=
  strToUpper method ++ " " ++
    strTrim (strReplace (strReplace (strReplace path "/" " ") "\x7b" " ") "\x7d" " ")

/-- The external uuid generator, modelled as an abstract generator applied to
an explicit call counter. -/
def uuid (gen : Nat → String) (n : Nat) : JsVal × Nat := (.str (gen n), n + 1)

/-- State-threaded map for uuid-consuming element builders. -/
def mapS {α β : Type} (f : α → Nat → β × Nat) : List α → Nat → List β × Nat
  | [], n => ([], n)
  | x :: xs, n =>
      let (y, n1) := f x n
      let (ys, n2) := mapS f xs n1
      (y :: ys, n2)

/-- State-threaded map for element builders that can throw. -/
def mapSE {α β : Type} (f : α → Nat → Except Unit (β × Nat)) :
    List α → Nat → Except Unit (List β × Nat)
  | [], n => .ok ([], n)
  | x :: xs, n =>
      match f x n with
      | .error e => .error e
      | .ok (y, n1) =>
          match mapSE f xs n1 with
          | .error e => .error e
          | .ok (ys, n2) => .ok (y :: ys, n2)

/-- One request-level variable entry built by extractUriParameters. -/
def uriParamVar (gen : Nat → String) (s : String) (n : Nat) : JsVal × Nat :=
  (.obj [("uid", .str (gen n)), ("name", .str s), ("value", .str ""),
    ("local", .bool false), ("enabled", .bool true)], n + 1)

/-- The importer's extractUriParameters: template-bracketed path segments,
minus the synthetic base-uri token, become variable entries. -/
def extractUriParameters (gen : Nat → String) (path : String) (n : Nat) :
    List JsVal × Nat :=
  mapS (uriParamVar gen)
    (((splitOnChar '/' path).filter (fun s => strStartsWith s "\x7b")).filter
      (fun s => s ≠ "\x7b\x7bbaseUri\x7d\x7d")) n

/-- The auth object literal of a freshly built request. -/
def authNone : JsVal :=
  .obj [("mode", .str "none"), ("basic", .null), ("bearer", .null), ("digest", .null)]

/-- The body object literal of a freshly built request. -/
def bodyNone : JsVal :=
  .obj [("mode", .str "none"), ("json", .null), ("text", .null), ("xml", .null),
    ("formUrlEncoded", .arr []), ("multipartForm", .arr [])]

/-! ## RAML importer (last revision in the file: no body handling) -/

/-- One query-parameter field pushed by createBrunoRequest; accessing
description/required on a null entry value throws in JS. -/
def queryParamField (gen : Nat → String) (kv : String × JsVal) (n : Nat) :
    Except Unit (JsVal × Nat) :=
  if jsNullish kv.2 then .error () else
  .ok (.obj [("uid", .str (gen n)), ("name", .str kv.1), ("value", .str ""),
    ("description", jsOrV (jsProp kv.2 "description") (.str "")),
    ("enabled", jsProp kv.2 "required")], n + 1)

/-- One header field pushed by createBrunoRequest (value seeded from example). -/
def headerFieldRaml (gen : Nat → String) (kv : String × JsVal) (n : Nat) :
    Except Unit (JsVal × Nat) :=
  if jsNullish kv.2 then .error () else
  .ok (.obj [("uid", .str (gen n)), ("name", .str kv.1),
    ("value", jsOrV (jsProp kv.2 "example") (.str "")),
    ("description", jsOrV (jsProp kv.2 "description") (.str "")),
    ("enabled", jsProp kv.2 "required")], n + 1)

/-- createBrunoRequest of the live RAML importer.  uuid consumption follows
source evaluation order: item uid, uri-parameter vars, query params, headers. -/
def createBrunoRequest (gen : Nat → String) (method : String) (baseUri : JsVal)
    (path : String) (properties : JsVal) (n : Nat) : Except Unit (JsVal × Nat) :=
  let (u, n1) := uuid gen n
  let (vars, n2) := extractUriParameters gen path n1
  match mapSE (queryParamField gen)
      (jsEntries (jsOrV (jsProp properties "queryParameters") (.obj []))) n2 with
  | .error e => .error e
  | .ok (params, n3) =>
      match mapSE (headerFieldRaml gen)
          (jsEntries (jsOrV (jsProp properties "headers") (.obj []))) n3 with
      | .error e => .error e
      | .ok (headers, n4) =>
          .ok (.obj [
            ("uid", u),
            ("name", jsOrV (jsProp properties "displayName")
              (.str (buildApiName method path))),
            ("type", .str "http-request"),
            ("request", .obj [
              ("url", .str (ensureUrl (jsToString baseUri ++ "/" ++ path))),
              ("method", .str (strToUpper method)),
              ("auth", authNone),
              ("headers", .arr headers),
              ("params", .arr params),
              ("vars", .obj [("req", .arr vars)]),
              ("body", bodyNone),
              ("docs", jsOrV (jsProp properties "description") (.str ""))])], n4)

/-- createBrunoFolder: folder named after the path with slashes spaced out. -/
def createBrunoFolder (gen : Nat → String) (path : String) (n : Nat) : JsVal × Nat :=
  (.obj [("uid", .str (gen n)), ("name", .str (strReplace path "/" " ")),
    ("type", .str "folder"), ("items", .arr [])], n + 1)

/-- The eight HTTP method key names recognised by the walker. -/
def httpMethods : List String :=
  ["get", "patch", "post", "delete", "put", "options", "head", "trace"]

mutual
/-- transformRamlNode: walk one RAML node.  Object.entries on null/undefined
throws; entries of strings, arrays, numbers and booleans expose only digit
index keys, which are neither HTTP methods nor slash-prefixed, so such nodes
contribute no items.  The fuel argument makes the recursion structural; any
fuel at least the document's jsSize gives the JS behaviour, and exhaustion is
modelled as a throw. -/
def transformRamlNode (gen : Nat → String) :
    Nat → JsVal → JsVal → String → Nat → Except Unit (List JsVal × Nat)
  | 0, _, _, _, _ => .error ()
  | fuel + 1, entries, baseUri, basePath, n =>
      match entries with
      | .null => .error ()
      | .undefined => .error ()
      | .obj fields =>
          transformRamlEntries gen fuel (jsOrderFields fields) baseUri basePath n
      | _ => .ok ([], n)
/-- Per-entry branch of transformRamlNode, flattening per-key results in
enumeration order. -/
def transformRamlEntries (gen : Nat → String) :
    Nat → List (String × JsVal) → JsVal → String → Nat → Except Unit (List JsVal × Nat)
  | _, [], _, _, n => .ok ([], n)
  | 0, _ :: _, _, _, _ => .error ()
  | fuel + 1, (key, val) :: rest, baseUri, basePath, n =>
      match
        (if httpMethods.contains (strToLower key) then
          match createBrunoRequest gen key baseUri basePath (jsOrV val (.obj [])) n with
          | .error e => .error e
          | .ok (item, n1) => .ok ([item], n1)
        else if strStartsWith key "/" then
          let (folder, n1) := createBrunoFolder gen key n
          match transformRamlNode gen fuel val baseUri
              (basePath ++ ensureUriParameter key) n1 with
          | .error e => .error e
          | .ok (items, n2) => .ok ([jsSet folder "items" (.arr items)], n2)
        else .ok ([], n) : Except Unit (List JsVal × Nat)) with
      | .error e => .error e
      | .ok (first, n1) =>
          match transformRamlEntries gen fuel rest baseUri basePath n1 with
          | .error e => .error e
          | .ok (restItems, n2) => .ok (first ++ restItems, n2)
end

/-- Rejection message of parseRamlCollection. -/
def ramlErrMsg : String := "An error occurred while parsing the RAML collection"

/-- parseRamlCollection of the live importer: wraps the walked item list in the
collection envelope, catching any traversal throw (including the member access
data["baseUri"] on a nullish document) as the single RAML parse error. -/
def parseRamlCollection (gen : Nat → String) (data : JsVal) (n : Nat) :
    Except String (JsVal × Nat) :=
  if jsNullish data then .error ramlErrMsg
  else
    let baseUri := jsOrV (jsProp data "baseUri") (.str "\x7b\x7bbaseUri\x7d\x7d")
    let nameV := jsOrV (jsProp data "title") (.str "")
    let (u, n1) := uuid gen n
    match transformRamlNode gen (jsSize data) data baseUri "" n1 with
    | .error _ => .error ramlErrMsg
    | .ok (items, n2) =>
        .ok (.obj [("name", nameV), ("uid", u), ("version", .str "1"),
          ("items", .arr items), ("environments", .arr [])], n2)

/-! ## Further JS semantics helpers -/

/-- lodash get with a string path: walks keys, yielding undefined as soon as an
intermediate value is nullish; the default replaces an undefined result only. -/
def lodashGet (v : JsVal) (path : List String) (dflt : JsVal) : JsVal :=
  let r := path.foldl (fun acc k => if jsNullish acc then JsVal.undefined else jsProp acc k) v
  match r with
  | .undefined => dflt
  | x => x

/-- JS ToNumber on a (trimmed) string: empty means 0, otherwise an optional
sign and digits; other shapes (floats, hex) do not occur in the importer. -/
def jsStrToNumber (s : String) : Option Int :=
  let t := strTrim s
  if t = "" then some 0
  else if strStartsWith t "-" then (strToNat? (t.drop 1)).map (fun m => -(m : Int))
  else (strToNat? t).map (fun m => (m : Int))

/-- JS ToNumber coercion (none models NaN). -/
def jsToNumber : JsVal → Option Int
  | .undefined => none
  | .null => some 0
  | .bool b => some (cond b 1 0)
  | .num n => some n
  | .str s => jsStrToNumber s
  | .arr xs => jsStrToNumber (jsToString (.arr xs))
  | .obj _ => none

/-- The comparison `v > 0` with JS numeric coercion. -/
def jsGtZero (v : JsVal) : Bool :=
  match jsToNumber v with
  | some n => n > 0
  | none => false

/-- lodash each/forEach enumeration with the callback's (value, key) pairs:
objects give string keys, array-likes (arrays test Array.isArray, strings are
array-like) give numeric indices; nil and primitives iterate nothing. -/
def jsEachEntries : JsVal → List (JsVal × JsVal)
  | .obj fields => (jsOrderFields fields).map (fun kv => (kv.2, .str kv.1))
  | .arr xs => xs.enum.map (fun p => (p.2, .num p.1))
  | .str s => s.toList.enum.map (fun p => (.str (String.singleton p.2), .num p.1))
  | _ => []

/-! ## First importer revision (part 2 of the file): createBrunoRequest with
RAML body handling and a caller-supplied default media type -/

/-- The mime-type to body-mode object literal, in declaration order. -/
def bodyModeMapping : List (String × String) :=
  [("multipart/form-data", "multipartForm"),
   ("application/x-www-form-urlencoded", "formUrlEncoded"),
   ("application/json", "json"),
   ("application/xml", "xml"),
   ("text/xml", "xml"),
   ("text/plain", "text")]

theorem jsFieldSet_lookup_ne (m k : String) (v : JsVal) (h : m ≠ k) :
    ∀ (fields : List (String × JsVal)),
      jsFieldLookup (jsFieldSet fields m v) k = jsFieldLookup fields k := by
  intro fields
  induction fields with
  | nil =>
      have hb : (m == k) = false := beq_eq_false_iff_ne.mpr h
      simp [jsFieldSet, jsFieldLookup, hb]
  | cons p rest ih =>
      cases p with
      | mk k2 v2 =>
          simp only [jsFieldSet]
          split
          · rename_i hk2
            have : k2 ≠ k := by
              intro hc
              exact h ((eq_of_beq hk2).symm.trans hc)
            simp [jsFieldLookup, this]
          · simp only [jsFieldLookup, ih]
  
theorem jsProp_jsSet_ne (o : JsVal) (m k : String) (v : JsVal) (h : m ≠ k) :
    jsProp (jsSet o m v) k = jsProp o k := by
  cases o <;> simp [jsSet, jsProp]
  rw [jsFieldSet_lookup_ne m k v h]

namespace V1

/-- The scalar/form dispatch of the first revision's body block, given the
mode looked up from the (coerced) media type.  A missed lookup leaves
bodyMode undefined: body.mode is set to undefined and the example write
targets the literal property name "undefined". -/
def bodyForMode (gen : Nat → String) (bodyMode : Option String)
    (properties bodyObj : JsVal) (n : Nat) : Except Unit (JsVal × Nat) :=
  match bodyMode with
  | some m =>
      if m = "multipartForm" ∨ m = "formUrlEncoded" then
        match mapSE (queryParamField gen)
            (jsEntries (jsOrV
              (lodashGet properties ["body", "mediaType", "properties"]
                (jsProp bodyObj "properties")) (.obj []))) n with
        | .error e => .error e
        | .ok (formFields, n1) =>
            .ok (jsSet (jsSet bodyNone "mode" (.str m)) m (.arr formFields), n1)
      else
        .ok (jsSet (jsSet bodyNone "mode" (.str m)) m
          (jsOrV (lodashGet properties ["body", "mediaType", "example"]
            (jsProp bodyObj "example")) (.str "")), n)
  | none =>
      .ok (jsSet (jsSet bodyNone "mode" .undefined) "undefined"
        (jsOrV (lodashGet properties ["body", "mediaType", "example"]
          (jsProp bodyObj "example")) (.str "")), n)

/-- The body block of the first revision's createBrunoRequest: the first
mapping key with a truthy payload wins, falling back to the caller's default
media type; the mapping lookup coerces a non-string media type to its string
form. -/
def bodyMediaDispatch (gen : Nat → String) (mediaType properties : JsVal) (n : Nat) :
    Except Unit (JsVal × Nat) :=
  if jsTruthy mediaType then
    bodyForMode gen (bodyModeMapping.lookup (jsToString mediaType))
      properties (jsProp properties "body") n
  else .ok (bodyNone, n)

def bodyStep (gen : Nat → String) (properties defaultMediaType : JsVal) (n : Nat) :
    Except Unit (JsVal × Nat) :=
  if jsTruthy (jsProp properties "body") then
    bodyMediaDispatch gen
      (match (bodyModeMapping.map Prod.fst).find?
          (fun e => jsTruthy (jsProp (jsProp properties "body") e)) with
        | some k => JsVal.str k
        | none => defaultMediaType)
      properties n
  else .ok (bodyNone, n)

/-- createBrunoRequest of the first importer revision: identical request
skeleton, query-parameter and header loops as the live revision, followed by
the body block. -/
def createBrunoRequest (gen : Nat → String) (method : String) (baseUri : JsVal)
    (path : String) (properties defaultMediaType : JsVal) (n : Nat) :
    Except Unit (JsVal × Nat) :=
  match uuid gen n with
  | (u, n1) =>
  match extractUriParameters gen path n1 with
  | (vars, n2) =>
  match mapSE (queryParamField gen)
      (jsEntries (jsOrV (jsProp properties "queryParameters") (.obj []))) n2 with
  | .error e => .error e
  | .ok (params, n3) =>
  match mapSE (headerFieldRaml gen)
      (jsEntries (jsOrV (jsProp properties "headers") (.obj []))) n3 with
  | .error e => .error e
  | .ok (headers, n4) =>
  match bodyStep gen properties defaultMediaType n4 with
  | .error e => .error e
  | .ok (bodyV, n5) =>
      .ok (.obj [
        ("uid", u),
        ("name", jsOrV (jsProp properties "displayName")
          (.str (buildApiName method path))),
        ("type", .str "http-request"),
        ("request", .obj [
          ("url", .str (ensureUrl (jsToString baseUri ++ "/" ++ path))),
          ("method", .str (strToUpper method)),
          ("auth", authNone),
          ("headers", .arr headers),
          ("params", .arr params),
          ("vars", .obj [("req", .arr vars)]),
          ("body", bodyV),
          ("docs", jsOrV (jsProp properties "description") (.str ""))])], n5)

end V1

/-! ## OpenAPI helpers of the live revision -/

/-- lodash each over a collection's values only. -/
def jsEachElems (v : JsVal) : List JsVal := (jsEachEntries v).map Prod.fst

mutual
/-- buildEmptyJsonBody: scaffold an empty JSON instance from a schema node.
The lodash each over `bodySchema.properties || \x7b\x7d` iterates an object's
entries, an array's elements under their indices, and a string's characters
(all scalar, each yielding an empty-string field); other values iterate
nothing.  A null property entry throws (prop.type).  The fuel argument makes
the recursion structural; the caller passes the schema's jsSize, which always
suffices. -/
def buildEmptyJsonBody : Nat → JsVal → Except Unit JsVal
  | 0, _ => .error ()
  | fuel + 1, bodySchema =>
      match bodySchema with
      | .obj fields =>
          match jsFieldLookup fields "properties" with
          | some (.obj props) => buildJsonProps fuel (jsOrderFields props) (.obj [])
          | some (.arr xs) =>
              buildJsonProps fuel (xs.enum.map (fun p => (toString p.1, p.2))) (.obj [])
          | some (.str str) =>
              .ok (.obj (str.toList.enum.map (fun p => (toString p.1, .str ""))))
          | _ => .ok (.obj [])
      | _ => .ok (.obj [])
/-- Per-property step of buildEmptyJsonBody. -/
def buildJsonProps : Nat → List (String × JsVal) → JsVal → Except Unit JsVal
  | _, [], acc => .ok acc
  | 0, _ :: _, _ => .error ()
  | fuel + 1, (k, prop) :: rest, acc =>
      if jsNullish prop then .error () else
      if jsProp prop "type" = JsVal.str "object" then
        match buildEmptyJsonBody fuel prop with
        | .error e => .error e
        | .ok sub => buildJsonProps fuel rest (jsSet acc k sub)
      else if jsProp prop "type" = JsVal.str "array" then
        buildJsonProps fuel rest (jsSet acc k (.arr []))
      else buildJsonProps fuel rest (jsSet acc k (.str ""))
end

/-- Escape for JSON string rendering. -/
def jsonEscape (s : String) : String :=
  s.toList.foldr (fun c acc =>
    (match c with
     | '"' => "\\\""
     | '\\' => "\\\\"
     | '\n' => "\\n"
     | '\r' => "\\r"
     | '\t' => "\\t"
     | c => String.singleton c) ++ acc) ""

mutual
/-- JSON.stringify(v, null, 2): two-space pretty printing.  Only values built
by buildEmptyJsonBody (nested objects, empty arrays, empty strings) reach it
in the importer; fields render in stored order. -/
def jsonStringify (v : JsVal) (ind : String) : String :=
  match v with
  | .str s => "\"" ++ jsonEscape s ++ "\""
  | .num n => toString n
  | .bool b => cond b "true" "false"
  | .null => "null"
  | .undefined => "null"
  | .arr [] => "[]"
  | .arr xs =>
      "[\n" ++ String.intercalate ",\n" (jsonStringifyElems xs (ind ++ "  ")) ++
        "\n" ++ ind ++ "]"
  | .obj [] => "\x7b\x7d"
  | .obj fields =>
      "\x7b\n" ++ String.intercalate ",\n" (jsonStringifyFields fields (ind ++ "  ")) ++
        "\n" ++ ind ++ "\x7d"
def jsonStringifyElems : List JsVal → String → List String
  | [], _ => []
  | x :: rest, ind => (ind ++ jsonStringify x ind) :: jsonStringifyElems rest ind
def jsonStringifyFields : List (String × JsVal) → String → List String
  | [], _ => []
  | (k, v) :: rest, ind =>
      (ind ++ "\"" ++ jsonEscape k ++ "\": " ++ jsonStringify v ind) ::
        jsonStringifyFields rest ind
end

/-- Result shape of getSecurity: either the bare literal with only an empty
supported list, or the full shape that also carries the scheme index and the
getScheme lookup. -/
inductive SecCfg where
  | empty : SecCfg
  | full (supported : List JsVal) (schemes : JsVal) : SecCfg
  deriving Repr, DecidableEq

def mapExcept {α β : Type} (f : α → Except Unit β) : List α → Except Unit (List β)
  | [] => .ok []
  | x :: xs =>
      match f x with
      | .error e => .error e
      | .ok y => (mapExcept f xs).map (fun ys => y :: ys)

/-- getSecurity: the spec-wide security configuration.  The source's check
`Object.keys(securitySchemes) === 0` strict-compares an array with a number
and is always false (dead branch).  Calling .map on a non-array security
value throws. -/
def getSecurity (apiSpec : JsVal) : Except Unit SecCfg :=
  if jsNullish apiSpec then .error () else
  let supportedSchemes := jsOrV (jsProp apiSpec "security") (.arr [])
  if jsProp supportedSchemes "length" = JsVal.num 0 then .ok .empty
  else
    let securitySchemes := lodashGet apiSpec ["components", "securitySchemes"] (.obj [])
    match supportedSchemes with
    | .arr schemes =>
        (mapExcept (fun scheme =>
          if jsNullish scheme then .error ()
          else .ok (jsProp securitySchemes ((jsKeys scheme).headD "undefined")))
          schemes).map (fun sup => SecCfg.full sup securitySchemes)
    | _ => .error ()

/-- Operation descriptor handed to transformOpenapiRequestItem. -/
structure OpenapiOpRequest where
  method : String
  path : String
  operationObject : JsVal
  globalServer : String
  globalSecurity : SecCfg
  deriving Repr, DecidableEq

/-- One query or header field pushed from an operation parameter. -/
def openapiParamFieldObj (gen : Nat → String) (p : JsVal) (n : Nat) : JsVal × Nat :=
  (.obj [("uid", .str (gen n)), ("name", jsProp p "name"), ("value", .str ""),
    ("description", jsOrV (jsProp p "description") (.str "")),
    ("enabled", jsProp p "required")], n + 1)

/-- The operation-parameters loop: query and header params in source order,
filtered by the strict comparisons `param.in === "query" / "header"`;
accessing .in on a null entry throws. -/
def openapiParams (gen : Nat → String) :
    List JsVal → Nat → Except Unit ((List JsVal × List JsVal) × Nat)
  | [], n => .ok (([], []), n)
  | p :: rest, n =>
      if jsNullish p then .error () else
      if jsProp p "in" = JsVal.str "query" then
        let (f, n1) := openapiParamFieldObj gen p n
        match openapiParams gen rest n1 with
        | .error e => .error e
        | .ok ((qs, hs), n2) => .ok ((f :: qs, hs), n2)
      else if jsProp p "in" = JsVal.str "header" then
        let (f, n1) := openapiParamFieldObj gen p n
        match openapiParams gen rest n1 with
        | .error e => .error e
        | .ok ((qs, hs), n2) => .ok ((qs, f :: hs), n2)
      else openapiParams gen rest n

/-- Lines 562-569 of the source: pick the scheme for the produced auth.  An
operation-level security requirement wins and is looked up via getScheme,
which on the bare `{ supported: [] }` shape is undefined and throws when
called; Object.keys on a null first requirement also throws.  Otherwise the
first spec-wide supported scheme, if any, is used. -/
def chooseAuthScheme (opSecurity : JsVal) (cfg : SecCfg) : Except Unit JsVal :=
  if jsTruthy opSecurity ∧ jsGtZero (jsProp opSecurity "length") then
    let first := jsProp opSecurity "0"
    if jsNullish first then .error ()
    else
      match cfg with
      | .empty => .error ()
      | .full _ schemes => .ok (jsProp schemes ((jsKeys first).headD "undefined"))
  else
    match cfg with
    | .empty => .ok .undefined
    | .full supported _ => .ok (supported.headD .undefined)

/-- One form field pushed from a requestBody schema property (enabled is
unconditionally true in this revision). -/
def openapiFormField (gen : Nat → String) (kv : JsVal × JsVal) (n : Nat) :
    Except Unit (JsVal × Nat) :=
  if jsNullish kv.1 then .error () else
  .ok (.obj [("uid", .str (gen n)), ("name", kv.2), ("value", .str ""),
    ("description", jsOrV (jsProp kv.1 "description") (.str "")),
    ("enabled", .bool true)], n + 1)

/-- The `if (auth)` block of transformOpenapiRequestItem: map the chosen
scheme onto the auth literal, or inject an api-key header (consuming a uuid);
any other scheme shape is a silent no-op. -/
def openapiAuthStep (gen : Nat → String) (authV : JsVal) (n : Nat) :
    JsVal × List JsVal × Nat :=
  if jsTruthy authV then
    if jsProp authV "type" = JsVal.str "http" ∧ jsProp authV "scheme" = JsVal.str "basic" then
      (jsSet (jsSet authNone "mode" (.str "basic")) "basic"
        (.obj [("username", .str "\x7b\x7busername\x7d\x7d"),
               ("password", .str "\x7b\x7bpassword\x7d\x7d")]), [], n)
    else if jsProp authV "type" = JsVal.str "http" ∧ jsProp authV "scheme" = JsVal.str "bearer" then
      (jsSet (jsSet authNone "mode" (.str "bearer")) "bearer"
        (.obj [("token", .str "\x7b\x7btoken\x7d\x7d")]), [], n)
    else if jsProp authV "type" = JsVal.str "apiKey" ∧ jsProp authV "in" = JsVal.str "header" then
      (authNone, [.obj [("uid", .str (gen n)), ("name", jsProp authV "name"),
        ("value", .str "\x7b\x7bapiKey\x7d\x7d"),
        ("description", .str "Authentication header"),
        ("enabled", .bool true)]], n + 1)
    else (authNone, [], n)
  else (authNone, [], n)

/-- The mime-type dispatch of the requestBody block: build the body object
for the recognised mime types; any other mime type, including
application/xml, leaves the body literal untouched. -/
def openapiBodyForMime (gen : Nat → String) (mimeType : Option String)
    (bodySchema : JsVal) (n : Nat) : Except Unit (JsVal × Nat) :=
  if mimeType = some "application/json" then
    if jsTruthy bodySchema ∧ jsProp bodySchema "type" = JsVal.str "object" then
      match buildEmptyJsonBody (jsSize bodySchema) bodySchema with
      | .error e => .error e
      | .ok jb =>
          .ok (jsSet (jsSet bodyNone "mode" (.str "json")) "json"
            (.str (jsonStringify jb "")), n)
    else .ok (jsSet bodyNone "mode" (.str "json"), n)
  else if mimeType = some "application/x-www-form-urlencoded" then
    if jsTruthy bodySchema ∧ jsProp bodySchema "type" = JsVal.str "object" then
      match mapSE (openapiFormField gen)
          (jsEachEntries (jsOrV (jsProp bodySchema "properties") (.obj []))) n with
      | .error e => .error e
      | .ok (fields, n1) =>
          .ok (jsSet (jsSet bodyNone "mode" (.str "formUrlEncoded"))
            "formUrlEncoded" (.arr fields), n1)
    else .ok (jsSet bodyNone "mode" (.str "formUrlEncoded"), n)
  else if mimeType = some "multipart/form-data" then
    if jsTruthy bodySchema ∧ jsProp bodySchema "type" = JsVal.str "object" then
      match mapSE (openapiFormField gen)
          (jsEachEntries (jsOrV (jsProp bodySchema "properties") (.obj []))) n with
      | .error e => .error e
      | .ok (fields, n1) =>
          .ok (jsSet (jsSet bodyNone "mode" (.str "multipartForm"))
            "multipartForm" (.arr fields), n1)
    else .ok (jsSet bodyNone "mode" (.str "multipartForm"), n)
  else if mimeType = some "text/plain" then
    .ok (jsSet (jsSet bodyNone "mode" (.str "text")) "text" (.str ""), n)
  else if mimeType = some "text/xml" then
    .ok (jsSet (jsSet bodyNone "mode" (.str "xml")) "xml" (.str ""), n)
  else .ok (bodyNone, n)

/-- The requestBody block of transformOpenapiRequestItem: pick the first
declared mime type of requestBody.content (Object.keys throws when content is
null) and dispatch on it; bodySchema is `(content[mimeType] || \x7b\x7d).schema`. -/
def openapiBodyContent (gen : Nat → String) (content : JsVal) (n : Nat) :
    Except Unit (JsVal × Nat) :=
  if jsNullish content then .error () else
  openapiBodyForMime gen ((jsKeys content).head?)
    (jsProp (jsOrV (jsProp content (((jsKeys content).head?).getD "undefined"))
      (.obj [])) "schema") n

def openapiBodyStep (gen : Nat → String) (op : JsVal) (n : Nat) :
    Except Unit (JsVal × Nat) :=
  if jsTruthy (jsProp op "requestBody") then
    openapiBodyContent gen (lodashGet op ["requestBody", "content"] (.obj [])) n
  else .ok (bodyNone, n)

/-- transformOpenapiRequestItem: build a request item from an operation
descriptor.  The request literal carries url, method, auth, headers, params
and body only (no vars, no docs).  uuid order: item uid, parameter fields in
source order, an api-key auth header if injected, then form body fields. -/
def transformOpenapiRequestItem (gen : Nat → String) (request : OpenapiOpRequest)
    (n : Nat) : Except Unit (JsVal × Nat) :=
  if jsNullish request.operationObject then .error () else
  match uuid gen n with
  | (u, n1) =>
  match openapiParams gen
      (jsEachElems (jsOrV (jsProp request.operationObject "parameters") (.arr []))) n1 with
  | .error e => .error e
  | .ok ((params, headers0), n2) =>
  match chooseAuthScheme (jsProp request.operationObject "security")
      request.globalSecurity with
  | .error e => .error e
  | .ok authV =>
  match openapiAuthStep gen authV n2 with
  | (authObj, extraHeaders, n3) =>
  match openapiBodyStep gen request.operationObject n3 with
  | .error e => .error e
  | .ok (bodyV, n4) =>
      .ok (.obj [
        ("uid", u),
        ("name",
          (fun rawName => if jsTruthy rawName then rawName
            else .str (request.method ++ " " ++ request.path))
          (jsOrV (jsOrV (jsProp request.operationObject "operationId")
            (jsProp request.operationObject "summary"))
            (jsProp request.operationObject "description"))),
        ("type", .str "http-request"),
        ("request", .obj [
          ("url", .str (ensureUrl (request.globalServer ++ "/" ++ request.path))),
          ("method", .str (strToUpper request.method)),
          ("auth", authObj),
          ("headers", .arr (headers0 ++ extraHeaders)),
          ("params", .arr params),
          ("body", bodyV)])], n4)

/-! ## resolveRefs -/

/-- The key-by-key walk of a local component reference: each step reads
ref[key] (throwing if ref is nullish, which can only happen on entry when the
components index itself is nullish) and aborts with none as soon as the read
value is falsy. -/
def walkRefPath (components : JsVal) : List String → Except Unit (Option JsVal)
  | [] => .ok (some components)
  | k :: rest =>
      if jsNullish components then .error ()
      else
        let v := jsProp components k
        if jsTruthy v then walkRefPath v rest else .ok none

/-- resolveRefs: depth-first substitution of local `$ref` nodes against the
components index.  The fuel argument only models the unbounded JS recursion
(the source has no cycle guard); fuel 0 returns the node unchanged.  A
non-string `$ref` value throws (refPath.startsWith).  A `$ref` that does not
carry the local prefix falls through to the per-property recursion.  The
prefix length 13 is the length of "#/components/", so dropping it mirrors
replacing the prefix with the empty string. -/
def resolveRefs : Nat → JsVal → JsVal → Except Unit JsVal
  | 0, spec, _ => .ok spec
  | fuel + 1, spec, components =>
      match spec with
      | .arr xs =>
          (xs.mapM (fun x => resolveRefs fuel x components)).map .arr
      | .obj fields =>
          match jsFieldLookup fields "$ref" with
          | some (.str refPath) =>
              if strStartsWith refPath "#/components/" then
                match walkRefPath components (splitOnChar '/' (refPath.drop 13)) with
                | .error e => .error e
                | .ok none => .ok (.obj fields)
                | .ok (some target) => resolveRefs fuel target components
              else
                (fields.mapM (fun kv =>
                  (resolveRefs fuel kv.2 components).map (fun w => (kv.1, w)))).map .obj
          | some _ => .error ()
          | none =>
              (fields.mapM (fun kv =>
                (resolveRefs fuel kv.2 components).map (fun w => (kv.1, w)))).map .obj
      | x => .ok x

/-! ## groupRequestsByTags -/

/-- Append a request to its tag bucket, creating the bucket on first use. -/
def addToGroup (groups : List (String × List OpenapiOpRequest)) (tag : String)
    (r : OpenapiOpRequest) : List (String × List OpenapiOpRequest) :=
  match groups with
  | [] => [(tag, [r])]
  | (t, rs) :: rest =>
      if t == tag then (t, rs ++ [r]) :: rest else (t, rs) :: addToGroup rest tag r

/-- The tags value of a request: request.operationObject.tags || []. -/
def reqTags (r : OpenapiOpRequest) : JsVal :=
  jsOrV (jsProp r.operationObject "tags") (.arr [])

/-- tags.length > 0. -/
def reqHasTag (r : OpenapiOpRequest) : Bool := jsGtZero (jsProp (reqTags r) "length")

/-- The first tag, coerced to the string it is used as a property key. -/
def reqFirstTag (r : OpenapiOpRequest) : String := jsToString (jsProp (reqTags r) "0")

/-- The accumulation loop of groupRequestsByTags; reading .tags on a null
operation object throws. -/
def groupStep : List OpenapiOpRequest → List (String × List OpenapiOpRequest) →
    List OpenapiOpRequest →
    Except Unit (List (String × List OpenapiOpRequest) × List OpenapiOpRequest)
  | [], groups, ungrouped => .ok (groups, ungrouped)
  | r :: rest, groups, ungrouped =>
      if jsNullish r.operationObject then .error () else
      if reqHasTag r then
        groupStep rest (addToGroup groups (reqFirstTag r) r) ungrouped
      else groupStep rest groups (ungrouped ++ [r])

/-- groupRequestsByTags: bucket requests by their first tag (the bucket key is
the JS property key, so Object.keys enumerates integer-like tag names first),
with tagless requests collected in source order. -/
def groupRequestsByTags (requests : List OpenapiOpRequest) :
    Except Unit (List (String × List OpenapiOpRequest) × List OpenapiOpRequest) :=
  match groupStep requests [] [] with
  | .error e => .error e
  | .ok (groups, ungrouped) => .ok (jsOrderFields groups, ungrouped)

/-! ## importCollection -/

/-- Outcome of the fileDialog/readFile front of the pipeline: a parsed YAML
document, a parse failure (rejected as a BrunoError with message
"Import collection failed"), or a raw reader error carrying its own message. -/
inductive ReadOutcome where
  | parsed (data : JsVal)
  | parseError
  | readerError (msg : String)

/-- importCollection: the public entry point.  The promise chain is modelled
as sequenced Except values: fileDialog then readFile then parseRamlCollection
then the three external pipeline stages; the single catch wraps whatever
message reaches it with the "Import collection failed: " prefix. -/
def importCollection (gen : Nat → String) (dialog : Except String ReadOutcome)
    (t h v : JsVal → Except String JsVal) (n : Nat) : Except String JsVal :=
  let chained : Except String JsVal :=
    match dialog with
    | .error m => .error m
    | .ok .parseError => .error "Import collection failed"
    | .ok (.readerError m) => .error m
    | .ok (.parsed data) =>
        match parseRamlCollection gen data n with
        | .error m => .error m
        | .ok (c, _) => ((t c).bind h).bind v
  match chained with
  | .ok c => .ok c
  | .error m => .error ("Import collection failed: " ++ m)

/-! ## Accessors over produced values, shared by the claim theorems -/

/-- Field list of the request object inside a produced item. -/
def requestKeys (item : JsVal) : List String :=
  match jsProp item "request" with
  | .obj fs => fs.map Prod.fst
  | _ => []

/-- The request object of a produced item. -/
def requestOf (item : JsVal) : JsVal := jsProp item "request"

/-- The body object of a produced item. -/
def bodyOf (item : JsVal) : JsVal := jsProp (jsProp item "request") "body"

/-- The items list of a produced collection or folder. -/
def itemsOf (v : JsVal) : List JsVal :=
  match jsProp v "items" with
  | .arr xs => xs
  | _ => []

/-- The five payload fields of a body object. -/
def bodyPayloadFields : List String :=
  ["json", "text", "xml", "formUrlEncoded", "multipartForm"]

/-- A sample injective uid generator for concrete runs. -/
def sampleGen (n : Nat) : String := String.mk (List.replicate n 'u')

theorem sampleGen_injective : Function.Injective sampleGen := by
  intro a b h
  have hl := congrArg (fun s => s.data.length) h
  simpa [sampleGen] using hl

/-! ## C8 -/

/-- C8: the public entry point either resolves with a single collection value
or rejects with one error whose message starts with "Import collection
failed"; every failure of reading, parsing, traversal or the downstream
pipeline funnels through the one outermost catch that builds that message. -/
theorem c8_single_error_surface (gen : Nat → String) (dialog : Except String ReadOutcome)
    (t h v : JsVal → Except String JsVal) (n : Nat) :
    (∃ c, importCollection gen dialog t h v n = .ok c) ∨
    (∃ rest, importCollection gen dialog t h v n =
      .error ("Import collection failed" ++ rest)) := by
  unfold importCollection
  cases hd : dialog with
  | error m => exact Or.inr ⟨": " ++ m, by simp; rw [← String.append_assoc,
              show ("Import collection failed" ++ ": " : String) =
                "Import collection failed: " from rfl]⟩
  | ok ro =>
      cases ro with
      | parseError =>
          exact Or.inr ⟨": " ++ "Import collection failed", by simp⟩
      | readerError m => exact Or.inr ⟨": " ++ m, by simp; rw [← String.append_assoc,
              show ("Import collection failed" ++ ": " : String) =
                "Import collection failed: " from rfl]⟩
      | parsed data =>
          cases hp : parseRamlCollection gen data n with
          | error m =>
              exact Or.inr ⟨": " ++ m, by simp [hp]; rw [← String.append_assoc,
              show ("Import collection failed" ++ ": " : String) =
                "Import collection failed: " from rfl]⟩
          | ok cn =>
              cases hc : ((t cn.1).bind h).bind v with
              | error m =>
                  exact Or.inr ⟨": " ++ m, by simp [hp, hc]; rw [← String.append_assoc,
              show ("Import collection failed" ++ ": " : String) =
                "Import collection failed: " from rfl]⟩
              | ok c => exact Or.inl ⟨c, by simp [hp, hc]⟩

/-! ## C5 -/

/-- C5 counterexample: with components `schemas.Pet` present but null (an
empty YAML schema stub), the claim says the `$ref` node is replaced by the
referenced content (null); resolveRefs instead treats the falsy component as
a miss and returns the node unchanged. -/
theorem c5_counterexample :
    resolveRefs 5 (.obj [("$ref", .str "#/components/schemas/Pet")])
      (.obj [("schemas", .obj [("Pet", .null)])]) =
      .ok (.obj [("$ref", .str "#/components/schemas/Pet")]) ∧
    JsVal.obj [("$ref", .str "#/components/schemas/Pet")] ≠ JsVal.null := by
  decide

/-- C5 amended: for a mapping node whose `$ref` starts with "#/components/",
resolveRefs substitutes the recursively resolved target when the key walk
succeeds, and returns the node unchanged when the walk aborts; the walk aborts
as soon as a key's value is missing or otherwise falsy (null, false, 0, ""),
not only when the key is missing. -/
theorem c5_amended :
    (∀ (fuel : Nat) (fields : List (String × JsVal)) (comps : JsVal)
      (refPath : String) (target : JsVal),
      jsFieldLookup fields "$ref" = some (.str refPath) →
      strStartsWith refPath "#/components/" = true →
      walkRefPath comps (splitOnChar '/' (refPath.drop 13)) = .ok (some target) →
      resolveRefs (fuel + 1) (.obj fields) comps = resolveRefs fuel target comps) ∧
    (∀ (fuel : Nat) (fields : List (String × JsVal)) (comps : JsVal)
      (refPath : String),
      jsFieldLookup fields "$ref" = some (.str refPath) →
      strStartsWith refPath "#/components/" = true →
      walkRefPath comps (splitOnChar '/' (refPath.drop 13)) = .ok none →
      resolveRefs (fuel + 1) (.obj fields) comps = .ok (.obj fields)) ∧
    (∀ (comps : JsVal) (k : String) (rest : List String),
      jsNullish comps = false →
      jsTruthy (jsProp comps k) = false →
      walkRefPath comps (k :: rest) = .ok none) := by
  refine ⟨?_, ?_, ?_⟩
  · intro fuel fields comps refPath target h1 h2 h3
    simp [resolveRefs, h1, h2, h3]
  · intro fuel fields comps refPath h1 h2 h3
    simp [resolveRefs, h1, h2, h3]
  · intro comps k rest h1 h2
    simp [walkRefPath, h1, h2]

/-- C5 witness: a concrete successful resolution discharging the amended
theorem's hypotheses, alongside the abort cases. -/
theorem c5_witness :
    resolveRefs 4 (.obj [("$ref", .str "#/components/schemas/Pet")])
      (.obj [("schemas", .obj [("Pet", .obj [("type", .str "object")])])]) =
      resolveRefs 3 (.obj [("type", .str "object")])
        (.obj [("schemas", .obj [("Pet", .obj [("type", .str "object")])])]) ∧
    resolveRefs 4 (.obj [("$ref", .str "#/components/schemas/Gone")])
      (.obj [("schemas", .obj [("Pet", .obj [("type", .str "object")])])]) =
      .ok (.obj [("$ref", .str "#/components/schemas/Gone")]) ∧
    walkRefPath (.obj [("schemas", .null)]) ["schemas", "Pet"] = .ok none := by
  refine ⟨?_, ?_, ?_⟩
  · exact c5_amended.1 3 _ _ "#/components/schemas/Pet" _ (by decide) (by decide)
      (by decide)
  · exact c5_amended.2.1 3 _ _ "#/components/schemas/Gone" (by decide) (by decide)
      (by decide)
  · exact c5_amended.2.2 _ "schemas" ["Pet"] (by decide) (by decide)

/-! ## C1 -/

/-- A minimal OpenAPI operation: one query parameter without a required flag
and a text/plain request body. -/
def opSample : JsVal := .obj [
  ("parameters", .arr [.obj [("name", .str "q"), ("in", .str "query")]]),
  ("requestBody", .obj [("content", .obj [("text/plain", .obj [])])])]

/-- The descriptor wrapping `opSample`. -/
def reqSample : OpenapiOpRequest :=
  { method := "get", path := "/pets", operationObject := opSample,
    globalServer := "http://api", globalSecurity := .empty }

/-- C1 counterexample: the request object produced by
transformOpenapiRequestItem carries only six keys; vars and docs are omitted
rather than present with neutral defaults, contradicting the claim for the
OpenAPI builder. -/
theorem c1_counterexample :
    (match transformOpenapiRequestItem sampleGen reqSample 0 with
     | .ok (item, _) => requestKeys item
     | .error _ => []) = ["url", "method", "auth", "headers", "params", "body"] ∧
    "vars" ∉ (["url", "method", "auth", "headers", "params", "body"] : List String) ∧
    "docs" ∉ (["url", "method", "auth", "headers", "params", "body"] : List String) := by
  decide

/-- C1 amended: every request object produced by the RAML walker's
createBrunoRequest carries exactly the eight keys url, method, auth, headers,
params, vars, body, docs; every request object produced by
transformOpenapiRequestItem carries exactly the six keys url, method, auth,
headers, params, body, omitting vars and docs. -/
theorem c1_amended :
    (∀ (gen : Nat → String) (method : String) (baseUri : JsVal) (path : String)
      (props : JsVal) (n : Nat) (item : JsVal) (nf : Nat),
      createBrunoRequest gen method baseUri path props n = .ok (item, nf) →
      requestKeys item =
        ["url", "method", "auth", "headers", "params", "vars", "body", "docs"]) ∧
    (∀ (gen : Nat → String) (req : OpenapiOpRequest) (n : Nat) (item : JsVal) (nf : Nat),
      transformOpenapiRequestItem gen req n = .ok (item, nf) →
      requestKeys item = ["url", "method", "auth", "headers", "params", "body"]) := by
  constructor
  · intro gen method baseUri path props n item nf h
    unfold createBrunoRequest at h
    repeat' split at h
    all_goals try exact Except.noConfusion h
    simp only [Except.ok.injEq, Prod.mk.injEq] at h
    obtain ⟨h1, h2⟩ := h
    subst h1
    simp [requestKeys, jsProp, jsFieldLookup]
  · intro gen req n item nf h
    unfold transformOpenapiRequestItem at h
    repeat' split at h
    all_goals try exact Except.noConfusion h
    simp only [Except.ok.injEq, Prod.mk.injEq] at h
    obtain ⟨h1, h2⟩ := h
    subst h1
    simp [requestKeys, jsProp, jsFieldLookup]

/-- C1 witness: both amended key lists realised on concrete runs. -/
theorem c1_witness :
    requestKeys (match createBrunoRequest sampleGen "get" (.str "http://a") "/x"
        (.obj []) 0 with
      | .ok (item, _) => item
      | .error _ => .null) =
      ["url", "method", "auth", "headers", "params", "vars", "body", "docs"] ∧
    requestKeys (match transformOpenapiRequestItem sampleGen reqSample 0 with
      | .ok (item, _) => item
      | .error _ => .null) =
      ["url", "method", "auth", "headers", "params", "body"] := by
  constructor
  · exact c1_amended.1 sampleGen "get" (.str "http://a") "/x" (.obj []) 0 _ 1 (by decide)
  · exact c1_amended.2 sampleGen reqSample 0 _ 2 (by decide)

/-! ## C9 -/

/-- C9 counterexample: a query parameter without a required flag yields
enabled = undefined, not the boolean false the claim requires. -/
theorem c9_counterexample :
    (match transformOpenapiRequestItem sampleGen reqSample 0 with
     | .ok (item, _) =>
         (match jsProp (requestOf item) "params" with
          | .arr (p :: _) => jsProp p "enabled"
          | _ => .null)
     | .error _ => .null) = JsVal.undefined ∧
    JsVal.undefined ≠ JsVal.bool false := by decide

/-- C9 amended: header and query-parameter fields (both importer revisions'
RAML loops and the OpenAPI parameters loop) copy the source required value
verbatim into enabled — true when required is true, false when false, but
undefined rather than false when the flag is omitted — while OpenAPI form-body
fields set enabled to true unconditionally. -/
theorem c9_amended :
    (∀ (gen : Nat → String) (kv : String × JsVal) (n : Nat) (f : JsVal) (nf : Nat),
      queryParamField gen kv n = .ok (f, nf) →
      jsProp f "enabled" = jsProp kv.2 "required") ∧
    (∀ (gen : Nat → String) (kv : String × JsVal) (n : Nat) (f : JsVal) (nf : Nat),
      headerFieldRaml gen kv n = .ok (f, nf) →
      jsProp f "enabled" = jsProp kv.2 "required") ∧
    (∀ (gen : Nat → String) (p : JsVal) (n : Nat),
      jsProp (openapiParamFieldObj gen p n).1 "enabled" = jsProp p "required") ∧
    (∀ (gen : Nat → String) (kv : JsVal × JsVal) (n : Nat) (f : JsVal) (nf : Nat),
      openapiFormField gen kv n = .ok (f, nf) →
      jsProp f "enabled" = JsVal.bool true) := by
  refine ⟨?_, ?_, ?_, ?_⟩
  · intro gen kv n f nf h
    unfold queryParamField at h
    split at h
    · exact Except.noConfusion h
    · simp only [Except.ok.injEq, Prod.mk.injEq] at h
      obtain ⟨h1, h2⟩ := h
      subst h1
      simp [jsProp, jsFieldLookup]
  · intro gen kv n f nf h
    unfold headerFieldRaml at h
    split at h
    · exact Except.noConfusion h
    · simp only [Except.ok.injEq, Prod.mk.injEq] at h
      obtain ⟨h1, h2⟩ := h
      subst h1
      simp [jsProp, jsFieldLookup]
  · intro gen p n
    simp [openapiParamFieldObj, jsProp, jsFieldLookup]
  · intro gen kv n f nf h
    unfold openapiFormField at h
    split at h
    · exact Except.noConfusion h
    · simp only [Except.ok.injEq, Prod.mk.injEq] at h
      obtain ⟨h1, h2⟩ := h
      subst h1
      simp [jsProp, jsFieldLookup]

/-- C9 witness: verbatim copies realised on concrete fields. -/
theorem c9_witness :
    jsProp (JsVal.obj [("uid", .str ""), ("name", .str "q"), ("value", .str ""),
      ("description", .str ""), ("enabled", .bool true)]) "enabled" =
      jsProp (JsVal.obj [("required", .bool true)]) "required" ∧
    jsProp (JsVal.obj [("uid", .str ""), ("name", .str "f"), ("value", .str ""),
      ("description", .str ""), ("enabled", .bool true)]) "enabled" = .bool true := by
  constructor
  · exact c9_amended.1 sampleGen ("q", .obj [("required", .bool true)]) 0 _ 1 (by decide)
  · exact c9_amended.2.2.2 sampleGen (.obj [], .str "f") 0 _ 1 (by decide)

/-! ## C10 -/

/-- C10 counterexample: a slash-prefixed resource key mapping to a string (a
non-object value) does not reject the import; Object.entries of a string
yields only digit-keyed characters, so the walker produces an empty folder
and the import succeeds. -/
theorem c10_counterexample :
    (parseRamlCollection sampleGen (.obj [("/pets", .str "hello")]) 0).isOk = true := by
  decide

theorem transformRamlNode_null (gen : Nat → String) (fuel : Nat) (b : JsVal)
    (p : String) (m : Nat) : transformRamlNode gen fuel JsVal.null b p m = .error () := by
  cases fuel <;> simp [transformRamlNode]

theorem transformRamlEntries_null_mem (gen : Nat → String) (key : String)
    (hs : strStartsWith key "/" = true)
    (hm : httpMethods.contains (strToLower key) = false) :
    ∀ (l : List (String × JsVal)) (fuel : Nat) (baseUri : JsVal)
      (basePath : String) (n : Nat), (key, JsVal.null) ∈ l →
      transformRamlEntries gen fuel l baseUri basePath n = .error () := by
  intro l
  induction l with
  | nil => intro fuel baseUri basePath n hmem; simp at hmem
  | cons p0 rest ih =>
      intro fuel baseUri basePath n hmem
      match fuel with
      | 0 => simp [transformRamlEntries]
      | fuel + 1 =>
          rcases List.mem_cons.mp hmem with heq | hmem2
          · subst heq
            have hm2 : ¬ strToLower key ∈ httpMethods := by simpa using hm
            simp [transformRamlEntries, hm2, hs, transformRamlNode_null,
              createBrunoFolder]
          · cases p0 with
            | mk k0 v0 =>
                simp only [transformRamlEntries]
                split
                · rfl
                · rename_i first n1 hstep
                  rw [ih fuel baseUri basePath n1 hmem2]

/-- C10 amended: a slash-prefixed resource key mapping to null rejects the
whole import (Object.entries of null throws, and a slash key is never one of
the eight method names — stated as an explicit hypothesis); but a
slash-prefixed key mapping to a non-null non-object value such as a string
does not reject (see the counterexample), and an HTTP-method key with a null
value is defaulted to an empty object, yielding exactly the RequestItem built
from empty properties. -/
theorem c10_amended :
    (∀ (gen : Nat → String) (fields : List (String × JsVal)) (key : String) (n : Nat),
      (key, JsVal.null) ∈ fields →
      strStartsWith key "/" = true →
      httpMethods.contains (strToLower key) = false →
      parseRamlCollection gen (.obj fields) n = .error ramlErrMsg) ∧
    (∀ (gen : Nat → String) (fuel : Nat) (baseUri : JsVal) (basePath : String) (n : Nat),
      transformRamlNode gen (fuel + 2) (.obj [("get", JsVal.null)]) baseUri basePath n =
        (createBrunoRequest gen "get" baseUri basePath (.obj []) n).map
          (fun r => ([r.1], r.2))) := by
  constructor
  · intro gen fields key n hmem hs hm
    have hmem2 : (key, JsVal.null) ∈ jsOrderFields fields :=
      (jsOrderFields_perm fields).mem_iff.mpr hmem
    obtain ⟨k, hk⟩ : ∃ k, jsSize (.obj fields) = k + 1 :=
      ⟨jsSizeFields fields, by simp [jsSize, Nat.add_comm]⟩
    unfold parseRamlCollection
    rw [hk]
    simp only [jsNullish, Bool.false_eq_true, if_false, transformRamlNode,
      transformRamlEntries_null_mem gen key hs hm (jsOrderFields fields) k _ _ _ hmem2]
  · intro gen fuel baseUri basePath n
    have ho : jsOrderFields [("get", JsVal.null)] = [("get", JsVal.null)] := by decide
    have hc : httpMethods.contains (strToLower "get") = true := by decide
    simp only [transformRamlNode, ho, transformRamlEntries, hc, if_true]
    have : jsOrV JsVal.null (JsVal.obj []) = JsVal.obj [] := by decide
    rw [this]
    cases hr : createBrunoRequest gen "get" baseUri basePath (.obj []) n with
    | error e => simp [Except.map]
    | ok r => cases r with
      | mk item n1 => simp [transformRamlEntries, Except.map]

/-- C10 witness: the concrete null-resource rejection and the concrete
null-method success. -/
theorem c10_witness :
    parseRamlCollection sampleGen (.obj [("/x", JsVal.null)]) 0 = .error ramlErrMsg ∧
    transformRamlNode sampleGen 2 (.obj [("get", JsVal.null)]) (.str "b") "" 0 =
      (createBrunoRequest sampleGen "get" (.str "b") "" (.obj []) 0).map
        (fun r => ([r.1], r.2)) := by
  constructor
  · exact c10_amended.1 sampleGen [("/x", JsVal.null)] "/x" 0 (by decide) (by decide)
      (by decide)
  · exact c10_amended.2 sampleGen 0 (.str "b") "" 0

/-! ## C7 -/

/-- An operation descriptor carrying the given tag list. -/
def opWithTags (p : String) (tags : List String) : OpenapiOpRequest :=
  { method := "get", path := p, operationObject := .obj [("tags", .arr (tags.map .str))],
    globalServer := "", globalSecurity := .empty }

/-- C7 counterexample: with integer-like tag names "2" then "1", the bucket
order follows JS object key enumeration (numeric ascending), not source
enumeration order. -/
theorem c7_counterexample :
    (match groupRequestsByTags [opWithTags "/a" ["2"], opWithTags "/b" ["1"]] with
     | .ok (groups, _) => groups.map Prod.fst
     | .error _ => []) = ["1", "2"] ∧
    (["1", "2"] : List String) ≠ ["2", "1"] := by decide

theorem addToGroup_inv (tag : String) (r : OpenapiOpRequest)
    (htag : reqHasTag r = true) (htag2 : reqFirstTag r = tag) :
    ∀ (groups : List (String × List OpenapiOpRequest)),
    (∀ t rs, (t, rs) ∈ groups → ∀ q ∈ rs, reqHasTag q = true ∧ reqFirstTag q = t) →
    ∀ t rs, (t, rs) ∈ addToGroup groups tag r →
    ∀ q ∈ rs, reqHasTag q = true ∧ reqFirstTag q = t := by
  intro groups
  induction groups with
  | nil =>
      intro hinv t rs hmem q hq
      simp [addToGroup] at hmem
      obtain ⟨rfl, rfl⟩ := hmem
      simp at hq
      subst hq
      exact ⟨htag, htag2⟩
  | cons g0 grest ihg =>
      obtain ⟨t0, rs0⟩ := g0
      intro hinv t rs hmem q hq
      simp only [addToGroup] at hmem
      split at hmem
      · rename_i heq0
        rcases List.mem_cons.mp hmem with heq | hmem2
        · injection heq with h1 h2
          subst h1
          subst h2
          rcases List.mem_append.mp hq with hq1 | hq2
          · exact hinv t rs0 (by simp) q hq1
          · simp at hq2
            subst hq2
            exact ⟨htag, (eq_of_beq heq0) ▸ htag2⟩
        · exact hinv t rs (List.mem_cons_of_mem _ hmem2) q hq
      · rcases List.mem_cons.mp hmem with heq | hmem2
        · injection heq with h1 h2
          subst h1
          subst h2
          exact hinv t rs (by simp) q hq
        · exact ihg (fun t1 rs1 hm1 => hinv t1 rs1 (List.mem_cons_of_mem _ hm1))
            t rs hmem2 q hq

theorem groupStep_spec :
    ∀ (l : List OpenapiOpRequest) (groups : List (String × List OpenapiOpRequest))
      (ungrouped : List OpenapiOpRequest)
      (gout : List (String × List OpenapiOpRequest)) (uout : List OpenapiOpRequest),
      groupStep l groups ungrouped = .ok (gout, uout) →
      (∀ t rs, (t, rs) ∈ groups → ∀ r ∈ rs, reqHasTag r = true ∧ reqFirstTag r = t) →
      (uout = ungrouped ++ l.filter (fun r => !reqHasTag r) ∧
       ∀ t rs, (t, rs) ∈ gout → ∀ r ∈ rs, reqHasTag r = true ∧ reqFirstTag r = t) := by
  intro l
  induction l with
  | nil =>
      intro groups ungrouped gout uout h hinv
      simp only [groupStep, Except.ok.injEq, Prod.mk.injEq] at h
      obtain ⟨h1, h2⟩ := h
      subst h1
      subst h2
      simpa using hinv
  | cons r rest ih =>
      intro groups ungrouped gout uout h hinv
      simp only [groupStep] at h
      split at h
      · exact Except.noConfusion h
      · split at h
        · rename_i hnn htag
          have hinv2 := addToGroup_inv (reqFirstTag r) r htag rfl groups hinv
          have := ih _ _ _ _ h hinv2
          refine ⟨?_, this.2⟩
          rw [this.1]
          simp [htag]
        · rename_i hnn htag
          have := ih _ _ _ _ h hinv
          refine ⟨?_, this.2⟩
          rw [this.1]
          simp at htag
          simp [htag]

/-- C7 amended: two operations tagged "Users" plus one untagged produce one
bucket ("Users", both operations in source order) plus the untagged one
ungrouped; in general the tagless requests form the ungrouped list in source
order and every bucketed request sits under exactly its first declared tag —
but the bucket list follows JS object key enumeration, which places
integer-like tag names first in numeric order rather than source order. -/
theorem c7_amended :
    (groupRequestsByTags [opWithTags "/u1" ["Users"], opWithTags "/u2" ["Users"],
        opWithTags "/u3" []] =
      .ok ([("Users", [opWithTags "/u1" ["Users"], opWithTags "/u2" ["Users"]])],
        [opWithTags "/u3" []])) ∧
    (∀ (requests : List OpenapiOpRequest) gout uout,
      groupRequestsByTags requests = .ok (gout, uout) →
      uout = requests.filter (fun r => !reqHasTag r) ∧
      ∀ t rs, (t, rs) ∈ gout → ∀ r ∈ rs, reqHasTag r = true ∧ reqFirstTag r = t) := by
  constructor
  · decide
  · intro requests gout uout h
    unfold groupRequestsByTags at h
    cases hstep : groupStep requests [] [] with
    | error e => rw [hstep] at h; exact Except.noConfusion h
    | ok p =>
        obtain ⟨groups0, ungrouped0⟩ := p
        rw [hstep] at h
        have hspec := groupStep_spec requests [] [] groups0 ungrouped0 hstep (by simp)
        simp only [Except.ok.injEq, Prod.mk.injEq] at h
        obtain ⟨h1, h2⟩ := h
        subst h1
        subst h2
        refine ⟨by simpa using hspec.1, ?_⟩
        intro t rs hmem
        exact hspec.2 t rs ((jsOrderFields_perm groups0).mem_iff.mp hmem)

/-- C7 witness: the general part of the amended theorem instantiated on the
Users scenario. -/
theorem c7_witness :
    ([opWithTags "/u3" []] : List OpenapiOpRequest) =
      List.filter (fun r => !reqHasTag r)
        [opWithTags "/u1" ["Users"], opWithTags "/u2" ["Users"], opWithTags "/u3" []] :=
  (c7_amended.2 [opWithTags "/u1" ["Users"], opWithTags "/u2" ["Users"],
    opWithTags "/u3" []]
    [("Users", [opWithTags "/u1" ["Users"], opWithTags "/u2" ["Users"]])]
    [opWithTags "/u3" []] (by decide)).1

/-! ## C2 -/

/-- C2 counterexample: a text/plain request body yields mode "text" with the
text payload set to the empty string — the neutral default — so no payload
field holds a non-default value even though mode is not "none". -/
theorem c2_counterexample :
    (match transformOpenapiRequestItem sampleGen reqSample 0 with
     | .ok (item, _) => bodyOf item
     | .error _ => .null) =
      .obj [("mode", .str "text"), ("json", .null), ("text", .str ""), ("xml", .null),
        ("formUrlEncoded", .arr []), ("multipartForm", .arr [])] ∧
    (∀ k ∈ bodyPayloadFields,
      jsProp (JsVal.obj [("mode", .str "text"), ("json", .null), ("text", .str ""),
        ("xml", .null), ("formUrlEncoded", .arr []), ("multipartForm", .arr [])]) k =
          .null ∨
      jsProp (JsVal.obj [("mode", .str "text"), ("json", .null), ("text", .str ""),
        ("xml", .null), ("formUrlEncoded", .arr []), ("multipartForm", .arr [])]) k =
          .str "" ∨
      jsProp (JsVal.obj [("mode", .str "text"), ("json", .null), ("text", .str ""),
        ("xml", .null), ("formUrlEncoded", .arr []), ("multipartForm", .arr [])]) k =
          .arr []) := by
  decide

theorem bodyModeMapping_lookup_values {s m : String}
    (h : bodyModeMapping.lookup s = some m) :
    m = "multipartForm" ∨ m = "formUrlEncoded" ∨ m = "json" ∨ m = "xml" ∨
      m = "text" := by
  simp only [bodyModeMapping, List.lookup] at h
  repeat' split at h
  all_goals simp_all

theorem openapiBodyForMime_payload (gen : Nat → String) (mt : Option String)
    (bodySchema : JsVal) (n : Nat) (bodyV : JsVal) (n1 : Nat)
    (h : openapiBodyForMime gen mt bodySchema n = .ok (bodyV, n1)) :
    ∀ k ∈ bodyPayloadFields, jsProp bodyV "mode" ≠ .str k →
      jsProp bodyV k = jsProp bodyNone k := by
  unfold openapiBodyForMime at h
  repeat' split at h
  all_goals try exact Except.noConfusion h
  all_goals
    simp only [Except.ok.injEq, Prod.mk.injEq] at h
  all_goals obtain ⟨h1, h2⟩ := h
  all_goals subst h1
  all_goals intro k hk hmode
  all_goals simp only [bodyPayloadFields, List.mem_cons,
    List.not_mem_nil, or_false] at hk
  all_goals rcases hk with rfl | rfl | rfl | rfl | rfl <;>
    simp_all [jsSet, jsFieldSet, jsProp, jsFieldLookup, bodyNone]

theorem bodyForMode_payload (gen : Nat → String) (bodyMode : Option String)
    (properties bodyObj : JsVal) (n : Nat) (bodyV : JsVal) (n1 : Nat)
    (h : V1.bodyForMode gen bodyMode properties bodyObj n = .ok (bodyV, n1)) :
    ∀ k ∈ bodyPayloadFields, jsProp bodyV "mode" ≠ .str k →
      jsProp bodyV k = jsProp bodyNone k := by
  cases bodyMode with
  | none =>
      simp only [V1.bodyForMode, Except.ok.injEq, Prod.mk.injEq] at h
      obtain ⟨h1, h2⟩ := h
      subst h1
      intro k hk hmode
      fin_cases hk <;> simp [jsSet, jsFieldSet, jsProp, jsFieldLookup, bodyNone]
  | some m =>
      simp only [V1.bodyForMode] at h
      split at h
      · rename_i hform
        split at h
        · exact Except.noConfusion h
        · simp only [Except.ok.injEq, Prod.mk.injEq] at h
          obtain ⟨h1, h2⟩ := h
          subst h1
          intro k hk hmode
          rcases hform with rfl | rfl <;> fin_cases hk <;>
            simp_all [jsSet, jsFieldSet, jsProp, jsFieldLookup, bodyNone]
      · rename_i hform
        simp only [Except.ok.injEq, Prod.mk.injEq] at h
        obtain ⟨h1, h2⟩ := h
        subst h1
        intro k hk hmode
        by_cases hmk : m = k
        · subst hmk
          exfalso
          apply hmode
          fin_cases hk <;> simp [jsSet, jsFieldSet, jsProp, jsFieldLookup, bodyNone]
        · have hmodek : ("mode" : String) ≠ k := by fin_cases hk <;> decide
          rw [jsProp_jsSet_ne _ _ _ _ hmk, jsProp_jsSet_ne _ _ _ _ hmodek]

theorem bodyMediaDispatch_payload (gen : Nat → String) (mt properties : JsVal)
    (n : Nat) (bodyV : JsVal) (n1 : Nat)
    (h : V1.bodyMediaDispatch gen mt properties n = .ok (bodyV, n1)) :
    ∀ k ∈ bodyPayloadFields, jsProp bodyV "mode" ≠ .str k →
      jsProp bodyV k = jsProp bodyNone k := by
  unfold V1.bodyMediaDispatch at h
  split at h
  · exact bodyForMode_payload _ _ _ _ _ _ _ h
  · simp only [Except.ok.injEq, Prod.mk.injEq] at h
    obtain ⟨h1, h2⟩ := h
    subst h1
    intro k hk hmode
    rfl

theorem bodyStep_payload_v1 (gen : Nat → String) (properties dmt : JsVal) (n : Nat)
    (bodyV : JsVal) (n1 : Nat)
    (h : V1.bodyStep gen properties dmt n = .ok (bodyV, n1)) :
    ∀ k ∈ bodyPayloadFields, jsProp bodyV "mode" ≠ .str k →
      jsProp bodyV k = jsProp bodyNone k := by
  unfold V1.bodyStep at h
  split at h
  · exact bodyMediaDispatch_payload _ _ _ _ _ _ h
  · simp only [Except.ok.injEq, Prod.mk.injEq] at h
    obtain ⟨h1, h2⟩ := h
    subst h1
    intro k hk hmode
    rfl

theorem openapiBodyStep_payload (gen : Nat → String) (op : JsVal) (n : Nat)
    (bodyV : JsVal) (n1 : Nat) (h : openapiBodyStep gen op n = .ok (bodyV, n1)) :
    ∀ k ∈ bodyPayloadFields, jsProp bodyV "mode" ≠ .str k →
      jsProp bodyV k = jsProp bodyNone k := by
  unfold openapiBodyStep openapiBodyContent at h
  split at h
  · split at h
    · exact Except.noConfusion h
    · exact openapiBodyForMime_payload _ _ _ _ _ _ h
  · simp only [Except.ok.injEq, Prod.mk.injEq] at h
    obtain ⟨h1, h2⟩ := h
    subst h1
    intro k hk hmode
    rfl

def c2SampleItem : JsVal := .obj
  [("uid", .str ""), ("name", .str "GET p"), ("type", .str "http-request"),
   ("request", .obj
     [("url", .str "http://x/p"), ("method", .str "GET"),
      ("auth", .obj [("mode", .str "none"), ("basic", .null), ("bearer", .null), ("digest", .null)]),
      ("headers", .arr []), ("params", .arr []),
      ("vars", .obj [("req", .arr [])]),
      ("body", .obj
        [("mode", .str "none"), ("json", .null), ("text", .null), ("xml", .null),
         ("formUrlEncoded", .arr []), ("multipartForm", .arr [])]),
      ("docs", .str "")])]

/-- C2 amended: in every body object attached to a produced request (both the
V1 importer's createBrunoRequest and the OpenAPI transformOpenapiRequestItem),
every payload field other than the one named by `mode` holds its neutral
default (the value it has in the all-none body); the field named by `mode`
itself may still be a neutral default (see the counterexample), so "exactly one
non-default" does not hold. -/
theorem c2_amended :
    (∀ (gen : Nat → String) (method : String) (baseUri : JsVal) (path : String)
       (props dmt : JsVal) (n : Nat) (item : JsVal) (nf : Nat),
       V1.createBrunoRequest gen method baseUri path props dmt n = .ok (item, nf) →
       ∀ k ∈ bodyPayloadFields, jsProp (bodyOf item) "mode" ≠ .str k →
         jsProp (bodyOf item) k = jsProp bodyNone k) ∧
    (∀ (gen : Nat → String) (request : OpenapiOpRequest) (n : Nat) (item : JsVal) (nf : Nat),
       transformOpenapiRequestItem gen request n = .ok (item, nf) →
       ∀ k ∈ bodyPayloadFields, jsProp (bodyOf item) "mode" ≠ .str k →
         jsProp (bodyOf item) k = jsProp bodyNone k) := by
  constructor
  · intro gen method baseUri path props dmt n item nf h
    unfold V1.createBrunoRequest at h
    repeat' split at h
    all_goals try exact Except.noConfusion h
    simp only [Except.ok.injEq, Prod.mk.injEq] at h
    obtain ⟨h1, h2⟩ := h
    subst h1
    rename_i bv n5 hbody
    simp only [bodyOf, jsProp, jsFieldLookup]
    simp only [show (("uid" == "request") : Bool) = false from rfl]
    exact bodyStep_payload_v1 _ _ _ _ _ _ hbody
  · intro gen request n item nf h
    unfold transformOpenapiRequestItem at h
    repeat' split at h
    all_goals try exact Except.noConfusion h
    simp only [Except.ok.injEq, Prod.mk.injEq] at h
    obtain ⟨h1, h2⟩ := h
    subst h1
    rename_i bv n5 hbody
    simp only [bodyOf, jsProp, jsFieldLookup]
    simp only [show (("uid" == "request") : Bool) = false from rfl]
    exact openapiBodyStep_payload _ _ _ _ _ hbody

/-- C2 witness: a concrete V1 run realising the amended theorem. -/
theorem c2_witness :
    V1.createBrunoRequest sampleGen "get" (.str "http://x") "/p" .null .null 0
      = .ok (c2SampleItem, 1) ∧
    jsProp (bodyOf c2SampleItem) "json" = jsProp bodyNone "json" :=
  ⟨by decide, c2_amended.1 sampleGen "get" (.str "http://x") "/p" .null .null 0
     c2SampleItem 1 (by decide) "json" (by decide) (by decide)⟩

def c6Op : OpenapiOpRequest :=
  { method := "get", path := "/pets",
    operationObject := .obj [("security", .arr [.obj [("basicAuth", .arr [])]])],
    globalServer := "http://api", globalSecurity := .empty }

/-- C6 counterexample: with an empty spec-wide security list getSecurity
returns the bare empty shape, and an operation that then declares its own
security requirement makes transformOpenapiRequestItem throw (getScheme is
undefined on that shape), instead of using the operation's scheme. -/
theorem c6_counterexample :
    getSecurity (.obj []) = .ok .empty ∧
    transformOpenapiRequestItem sampleGen c6Op 0 = .error () := by decide

/-- C6 amended: with a full spec security shape, an operation-level non-empty
security list picks the operation's first scheme name in the scheme index,
independent of the spec-wide supported list; absent an operation-level list,
the first spec-wide supported scheme is used; with the empty shape, an
operation-level list throws (getScheme undefined), while no operation-level
list yields undefined and the auth mapping leaves auth mode "none". -/
theorem c6_amended :
    (∀ (opSecurity schemes : JsVal) (supported : List JsVal),
       jsTruthy opSecurity ∧ jsGtZero (jsProp opSecurity "length") →
       ¬ jsNullish (jsProp opSecurity "0") →
       chooseAuthScheme opSecurity (.full supported schemes)
         = .ok (jsProp schemes ((jsKeys (jsProp opSecurity "0")).headD "undefined"))) ∧
    (∀ (opSecurity schemes : JsVal) (supported : List JsVal),
       ¬ (jsTruthy opSecurity ∧ jsGtZero (jsProp opSecurity "length")) →
       chooseAuthScheme opSecurity (.full supported schemes)
         = .ok (supported.headD .undefined)) ∧
    (∀ (opSecurity : JsVal),
       jsTruthy opSecurity ∧ jsGtZero (jsProp opSecurity "length") →
       ¬ jsNullish (jsProp opSecurity "0") →
       chooseAuthScheme opSecurity .empty = .error ()) ∧
    (∀ (gen : Nat → String) (n : Nat) (opSecurity : JsVal),
       ¬ (jsTruthy opSecurity ∧ jsGtZero (jsProp opSecurity "length")) →
       chooseAuthScheme opSecurity .empty = .ok .undefined ∧
       openapiAuthStep gen .undefined n = (authNone, [], n)) := by
  refine ⟨?_, ?_, ?_, ?_⟩
  · intro opSecurity schemes supported h hnn
    unfold chooseAuthScheme
    rw [if_pos h, if_neg (by simpa using hnn)]
  · intro opSecurity schemes supported h
    unfold chooseAuthScheme
    rw [if_neg h]
  · intro opSecurity h hnn
    unfold chooseAuthScheme
    rw [if_pos h, if_neg (by simpa using hnn)]
  · intro gen n opSecurity h
    constructor
    · unfold chooseAuthScheme
      rw [if_neg h]
    · rfl

/-- C6 witness: the operation-level scheme lookup realised on a concrete
requirement, with a decoy spec-wide supported list. -/
theorem c6_witness :
    (jsTruthy (JsVal.arr [.obj [("basicAuth", .arr [])]]) ∧
      jsGtZero (jsProp (JsVal.arr [.obj [("basicAuth", .arr [])]]) "length")) ∧
    chooseAuthScheme (.arr [.obj [("basicAuth", .arr [])]])
        (.full [.str "ignored"] (.obj [("basicAuth", .str "theScheme")]))
      = .ok (.str "theScheme") :=
  ⟨by decide,
   c6_amended.1 (.arr [.obj [("basicAuth", .arr [])]])
     (.obj [("basicAuth", .str "theScheme")]) [.str "ignored"]
     (by decide) (by decide)⟩

def c4Tree : JsVal := .obj
  [("/pets", .obj [("get", .obj []), ("/\x7bid\x7d", .obj [("get", .obj [])])])]

def okVal : Except String (JsVal × Nat) → JsVal
  | .ok (v, _) => v
  | .error _ => .null

def c4Col : JsVal := okVal (parseRamlCollection sampleGen c4Tree 0)
def c4TopFolder : JsVal := (itemsOf c4Col).headD .null
def c4PetsReq : JsVal := (itemsOf c4TopFolder).headD .null
def c4IdFolder : JsVal := (itemsOf c4TopFolder).getD 1 .null
def c4IdReq : JsVal := (itemsOf c4IdFolder).headD .null

/-- C4 counterexample: the single top-level folder produced from the claim's
resource tree is named " pets" (path.replaceAll turns the leading slash into a
leading space), not "pets". -/
theorem c4_counterexample :
    ((itemsOf c4Col).map (fun it => jsProp it "name") = [.str " pets"]) ∧
    (" pets" : String) ≠ "pets" := by decide

/-- C4 amended: importing the claim's tree yields exactly one top-level folder
named " pets" holding one GET /pets request item and one nested folder named
" \x7bid\x7d" holding one GET request item for /pets/\x7b\x7bid\x7d\x7d whose
vars.req list has exactly one entry named \x7b\x7bid\x7d\x7d; the claimed
structure is right but both folder names keep the slash-to-space leading
space. -/
theorem c4_amended :
    (parseRamlCollection sampleGen c4Tree 0 ≠ .error ramlErrMsg) ∧
    (itemsOf c4Col).map (fun it => (jsProp it "name", jsProp it "type"))
      = [(.str " pets", .str "folder")] ∧
    (itemsOf c4TopFolder).map (fun it => (jsProp it "name", jsProp it "type"))
      = [(.str "GET pets", .str "http-request"), (.str " \x7bid\x7d", .str "folder")] ∧
    jsProp (requestOf c4PetsReq) "method" = .str "GET" ∧
    jsProp (requestOf c4PetsReq) "url" = .str "\x7b\x7bbaseUri\x7d\x7d/pets" ∧
    (itemsOf c4IdFolder).map (fun it => jsProp it "type") = [.str "http-request"] ∧
    jsProp (requestOf c4IdReq) "method" = .str "GET" ∧
    jsProp (requestOf c4IdReq) "url" = .str "\x7b\x7bbaseUri\x7d\x7d/pets/\x7b\x7bid\x7d\x7d" ∧
    (match jsProp (jsProp (requestOf c4IdReq) "vars") "req" with
      | .arr vs => vs.map (fun v => jsProp v "name")
      | _ => []) = [.str "\x7b\x7bid\x7d\x7d"] := by decide

/-! ## Uid collection over produced collection trees -/

mutual
/-- All uid values of the structural entities of a produced collection tree:
the uid field of the collection, of folders and request items (recursing
through items), and of header, param, var and form fields (recursing through
request, headers, params, vars and req); document-copied scalar fields such as
name, description or docs are never entered. -/
def collectUids : JsVal → List JsVal
  | .obj fields => collectUidsFields fields
  | _ => []
def collectUidsFields : List (String × JsVal) → List JsVal
  | [] => []
  | (k, v) :: rest =>
      (if k == "uid" then [v]
       else if k == "items" ∨ k == "headers" ∨ k == "params" ∨ k == "req" then
         collectUidsArr v
       else if k == "request" ∨ k == "vars" then collectUids v
       else []) ++ collectUidsFields rest
def collectUidsArr : JsVal → List JsVal
  | .arr xs => collectUidsList xs
  | _ => []
def collectUidsList : List JsVal → List JsVal
  | [] => []
  | x :: xs => collectUids x ++ collectUidsList xs
end

/-- The uids of a subtree are generator outputs at pairwise-distinct indices
drawn from the counter interval [lo, hi). -/
def UidSpan (gen : Nat → String) (lo hi : Nat) (uids : List JsVal) : Prop :=
  ∃ ixs : List Nat, uids = ixs.map (fun i => JsVal.str (gen i)) ∧
    ixs.Nodup ∧ ∀ i ∈ ixs, lo ≤ i ∧ i < hi

theorem span_nil (gen : Nat → String) (lo hi : Nat) : UidSpan gen lo hi [] :=
  ⟨[], rfl, List.nodup_nil, by simp⟩

theorem span_single (gen : Nat → String) (n : Nat) :
    UidSpan gen n (n + 1) [.str (gen n)] :=
  ⟨[n], rfl, List.nodup_singleton n, by simp⟩

theorem span_mono {gen : Nat → String} {lo hi lo' hi' : Nat} {u : List JsVal}
    (h : UidSpan gen lo hi u) (h1 : lo' ≤ lo) (h2 : hi ≤ hi') :
    UidSpan gen lo' hi' u := by
  obtain ⟨ixs, he, hn, hb⟩ := h
  exact ⟨ixs, he, hn, fun i hi => ⟨le_trans h1 (hb i hi).1, lt_of_lt_of_le (hb i hi).2 h2⟩⟩

theorem span_union (lo hi : Nat) {gen : Nat → String} {lo1 hi1 lo2 hi2 : Nat}
    {u1 u2 : List JsVal}
    (h1 : UidSpan gen lo1 hi1 u1) (h2 : UidSpan gen lo2 hi2 u2)
    (hd : hi1 ≤ lo2 ∨ hi2 ≤ lo1)
    (hl1 : lo ≤ lo1) (hl2 : lo ≤ lo2) (hh1 : hi1 ≤ hi) (hh2 : hi2 ≤ hi) :
    UidSpan gen lo hi (u1 ++ u2) := by
  obtain ⟨ixs1, he1, hn1, hb1⟩ := h1
  obtain ⟨ixs2, he2, hn2, hb2⟩ := h2
  refine ⟨ixs1 ++ ixs2, by simp [he1, he2], ?_, ?_⟩
  · rw [List.nodup_append]
    refine ⟨hn1, hn2, ?_⟩
    intro a ha hb
    have ba := hb1 a ha
    have bb := hb2 a hb
    rcases hd with hd | hd
    · omega
    · omega
  · intro i hi
    rcases List.mem_append.mp hi with h | h
    · have := hb1 i h; omega
    · have := hb2 i h; omega

theorem collectUidsList_append (xs ys : List JsVal) :
    collectUidsList (xs ++ ys) = collectUidsList xs ++ collectUidsList ys := by
  induction xs with
  | nil => rfl
  | cons x xs ih => simp [collectUidsList, ih]

theorem mapS_span {α : Type} (gen : Nat → String) (f : α → Nat → JsVal × Nat)
    (hf : ∀ a n, collectUids (f a n).1 = [.str (gen n)] ∧ (f a n).2 = n + 1) :
    ∀ (xs : List α) (n : Nat),
      UidSpan gen n (mapS f xs n).2 (collectUidsList (mapS f xs n).1) ∧
        n ≤ (mapS f xs n).2 := by
  intro xs
  induction xs with
  | nil => exact fun n => ⟨span_nil gen n n, le_refl n⟩
  | cons x xs ih =>
      intro n
      have hx := hf x n
      have hrest := ih (f x n).2
      constructor
      · show UidSpan gen n (mapS f (x :: xs) n).2 _
        rw [show mapS f (x :: xs) n = ((f x n).1 :: (mapS f xs (f x n).2).1,
              (mapS f xs (f x n).2).2) from rfl]
        show UidSpan gen n (mapS f xs (f x n).2).2
          (collectUidsList ((f x n).1 :: (mapS f xs (f x n).2).1))
        rw [show collectUidsList ((f x n).1 :: (mapS f xs (f x n).2).1)
              = collectUids (f x n).1 ++ collectUidsList (mapS f xs (f x n).2).1 from rfl]
        rw [hx.1]
        refine span_union n (mapS f xs (f x n).2).2
          (span_single gen n) hrest.1 (Or.inl (by omega)) (le_refl n)
          (by omega) ?_ (le_refl _)
        omega
      · rw [show (mapS f (x :: xs) n).2 = (mapS f xs (f x n).2).2 from rfl]
        omega

theorem mapSE_span {α : Type} (gen : Nat → String)
    (f : α → Nat → Except Unit (JsVal × Nat))
    (hf : ∀ a n y n1, f a n = .ok (y, n1) →
      collectUids y = [.str (gen n)] ∧ n1 = n + 1) :
    ∀ (xs : List α) (n : Nat) (ys : List JsVal) (n2 : Nat),
      mapSE f xs n = .ok (ys, n2) →
      UidSpan gen n n2 (collectUidsList ys) ∧ n ≤ n2 := by
  intro xs
  induction xs with
  | nil =>
      intro n ys n2 h
      simp only [mapSE, Except.ok.injEq, Prod.mk.injEq] at h
      obtain ⟨h1, h2⟩ := h
      subst h1; subst h2
      exact ⟨span_nil gen n n, le_refl n⟩
  | cons x xs ih =>
      intro n ys n2 h
      rcases hy : f x n with e | ⟨y, n1⟩
      · simp only [mapSE, hy] at h
        exact Except.noConfusion h
      · simp only [mapSE, hy] at h
        rcases hrest : mapSE f xs n1 with e | ⟨ys2, n2b⟩
        · rw [hrest] at h
          exact Except.noConfusion h
        · rw [hrest] at h
          simp only [Except.ok.injEq, Prod.mk.injEq] at h
          obtain ⟨h1, h2⟩ := h
          subst h1; subst h2
          have hx := hf x n y n1 hy
          have hr := ih n1 ys2 n2b hrest
          constructor
          · rw [show collectUidsList (y :: ys2)
                  = collectUids y ++ collectUidsList ys2 from rfl, hx.1]
            refine span_union n n2b
              (span_single gen n) hr.1 (Or.inl (by omega)) (le_refl n) (by omega)
              ?_ (le_refl _)
            omega
          · omega

theorem uriParamVar_uids (gen : Nat → String) (s : String) (n : Nat) :
    collectUids (uriParamVar gen s n).1 = [.str (gen n)] ∧
      (uriParamVar gen s n).2 = n + 1 :=
  ⟨rfl, rfl⟩

theorem extractUriParameters_span (gen : Nat → String) (path : String) (n : Nat) :
    UidSpan gen n (extractUriParameters gen path n).2
      (collectUidsList (extractUriParameters gen path n).1) ∧
      n ≤ (extractUriParameters gen path n).2 :=
  mapS_span gen (uriParamVar gen) (fun a m => uriParamVar_uids gen a m) _ n

theorem queryParamField_uids (gen : Nat → String) (kv : String × JsVal) (n : Nat)
    (y : JsVal) (n1 : Nat) (h : queryParamField gen kv n = .ok (y, n1)) :
    collectUids y = [.str (gen n)] ∧ n1 = n + 1 := by
  unfold queryParamField at h
  split at h
  · exact Except.noConfusion h
  · simp only [Except.ok.injEq, Prod.mk.injEq] at h
    obtain ⟨h1, h2⟩ := h
    subst h1; subst h2
    exact ⟨rfl, rfl⟩

theorem headerFieldRaml_uids (gen : Nat → String) (kv : String × JsVal) (n : Nat)
    (y : JsVal) (n1 : Nat) (h : headerFieldRaml gen kv n = .ok (y, n1)) :
    collectUids y = [.str (gen n)] ∧ n1 = n + 1 := by
  unfold headerFieldRaml at h
  split at h
  · exact Except.noConfusion h
  · simp only [Except.ok.injEq, Prod.mk.injEq] at h
    obtain ⟨h1, h2⟩ := h
    subst h1; subst h2
    exact ⟨rfl, rfl⟩

theorem createBrunoRequest_span (gen : Nat → String) (method : String)
    (baseUri : JsVal) (path : String) (properties : JsVal) (n : Nat)
    (item : JsVal) (nf : Nat)
    (h : createBrunoRequest gen method baseUri path properties n = .ok (item, nf)) :
    UidSpan gen n nf (collectUids item) ∧ n ≤ nf := by
  unfold createBrunoRequest at h
  simp only [uuid] at h
  rcases hev : extractUriParameters gen path (n + 1) with ⟨vars, n2⟩
  rw [hev] at h
  simp only [] at h
  rcases hq : mapSE (queryParamField gen)
      (jsEntries (jsOrV (jsProp properties "queryParameters") (.obj []))) n2
    with e | ⟨params, n3⟩
  · rw [hq] at h
    exact Except.noConfusion h
  · rw [hq] at h
    simp only [] at h
    rcases hh : mapSE (headerFieldRaml gen)
        (jsEntries (jsOrV (jsProp properties "headers") (.obj []))) n3
      with e | ⟨headers, nh⟩
    · rw [hh] at h
      exact Except.noConfusion h
    · rw [hh] at h
      simp only [Except.ok.injEq, Prod.mk.injEq] at h
      obtain ⟨h1, h2⟩ := h
      subst h1; subst h2
      have hvars := extractUriParameters_span gen path (n + 1)
      rw [hev] at hvars
      simp only at hvars
      have hps := mapSE_span gen (queryParamField gen)
        (fun a m y n1 hy => queryParamField_uids gen a m y n1 hy) _ _ _ _ hq
      have hhs := mapSE_span gen (headerFieldRaml gen)
        (fun a m y n1 hy => headerFieldRaml_uids gen a m y n1 hy) _ _ _ _ hh
      constructor
      · simp [collectUids, collectUidsFields, collectUidsArr, collectUidsList]
        refine span_union n nh
          (span_single gen n)
          (span_union (n + 1) nh hhs.1
            (span_union (n + 1) n3 hps.1 hvars.1 (Or.inr (le_refl n2))
              (by omega) (le_refl _) (le_refl _) (by omega))
            (Or.inr (le_refl n3)) (by omega) (by omega) (le_refl _) (by omega))
          (Or.inl (by omega)) (le_refl n) (by omega) (by omega) (le_refl _)
      · omega

theorem transformRaml_span (gen : Nat → String) : ∀ fuel : Nat,
    (∀ (entries baseUri : JsVal) (basePath : String) (n : Nat)
       (items : List JsVal) (n2 : Nat),
        transformRamlNode gen fuel entries baseUri basePath n = .ok (items, n2) →
        UidSpan gen n n2 (collectUidsList items) ∧ n ≤ n2) ∧
    (∀ (fields : List (String × JsVal)) (baseUri : JsVal) (basePath : String) (n : Nat)
       (items : List JsVal) (n2 : Nat),
        transformRamlEntries gen fuel fields baseUri basePath n = .ok (items, n2) →
        UidSpan gen n n2 (collectUidsList items) ∧ n ≤ n2) := by
  intro fuel
  induction fuel with
  | zero =>
      constructor
      · intro entries baseUri basePath n items n2 h
        exact Except.noConfusion h
      · intro fields baseUri basePath n items n2 h
        cases fields with
        | nil =>
            simp only [transformRamlEntries, Except.ok.injEq, Prod.mk.injEq] at h
            obtain ⟨h1, h2⟩ := h
            subst h1; subst h2
            exact ⟨span_nil gen n n, le_refl n⟩
        | cons kv rest =>
            obtain ⟨key, val⟩ := kv
            exact Except.noConfusion h
  | succ fuel ih =>
      constructor
      · intro entries baseUri basePath n items n2 h
        cases entries with
        | null => exact Except.noConfusion h
        | undefined => exact Except.noConfusion h
        | obj fields =>
            simp only [transformRamlNode] at h
            exact ih.2 _ _ _ _ _ _ h
        | bool b =>
            simp only [transformRamlNode, Except.ok.injEq, Prod.mk.injEq] at h
            obtain ⟨h1, h2⟩ := h
            subst h1; subst h2
            exact ⟨span_nil gen n n, le_refl n⟩
        | num m =>
            simp only [transformRamlNode, Except.ok.injEq, Prod.mk.injEq] at h
            obtain ⟨h1, h2⟩ := h
            subst h1; subst h2
            exact ⟨span_nil gen n n, le_refl n⟩
        | str s =>
            simp only [transformRamlNode, Except.ok.injEq, Prod.mk.injEq] at h
            obtain ⟨h1, h2⟩ := h
            subst h1; subst h2
            exact ⟨span_nil gen n n, le_refl n⟩
        | arr xs =>
            simp only [transformRamlNode, Except.ok.injEq, Prod.mk.injEq] at h
            obtain ⟨h1, h2⟩ := h
            subst h1; subst h2
            exact ⟨span_nil gen n n, le_refl n⟩
      · intro fields baseUri basePath n items n2 h
        cases fields with
        | nil =>
            simp only [transformRamlEntries, Except.ok.injEq, Prod.mk.injEq] at h
            obtain ⟨h1, h2⟩ := h
            subst h1; subst h2
            exact ⟨span_nil gen n n, le_refl n⟩
        | cons kv rest =>
        obtain ⟨key, val⟩ := kv
        simp only [transformRamlEntries] at h
        by_cases hc1 : httpMethods.contains (strToLower key) = true
        · rw [if_pos hc1] at h
          rcases hr : createBrunoRequest gen key baseUri basePath
              (jsOrV val (.obj [])) n with e | ⟨item, n1⟩
          · rw [hr] at h
            exact Except.noConfusion h
          · rw [hr] at h
            simp only [] at h
            rcases hrest : transformRamlEntries gen fuel rest baseUri basePath n1
              with e | ⟨ris, n2b⟩
            · rw [hrest] at h
              exact Except.noConfusion h
            · rw [hrest] at h
              simp only [Except.ok.injEq, Prod.mk.injEq] at h
              obtain ⟨h1, h2⟩ := h
              subst h1; subst h2
              have hs1 := createBrunoRequest_span gen key baseUri basePath
                (jsOrV val (.obj [])) n item n1 hr
              have hs2 := ih.2 rest baseUri basePath n1 ris n2b hrest
              constructor
              · rw [collectUidsList_append]
                refine span_union n n2b ?_ hs2.1 (Or.inl (le_refl n1))
                  (le_refl n) (by omega) (by omega) (le_refl _)
                rw [show collectUidsList [item] = collectUids item ++ [] from rfl,
                  List.append_nil]
                exact hs1.1
              · omega
        · rw [if_neg hc1] at h
          by_cases hc2 : strStartsWith key "/" = true
          · rw [if_pos hc2] at h
            simp only [createBrunoFolder] at h
            rcases hnode : transformRamlNode gen fuel val baseUri
                (basePath ++ ensureUriParameter key) (n + 1) with e | ⟨its, n2a⟩
            · rw [hnode] at h
              exact Except.noConfusion h
            · rw [hnode] at h
              simp only [] at h
              rcases hrest : transformRamlEntries gen fuel rest baseUri basePath n2a
                with e | ⟨ris, n2b⟩
              · rw [hrest] at h
                exact Except.noConfusion h
              · rw [hrest] at h
                simp only [Except.ok.injEq, Prod.mk.injEq] at h
                obtain ⟨h1, h2⟩ := h
                subst h1; subst h2
                have hs1 := ih.1 val baseUri (basePath ++ ensureUriParameter key)
                  (n + 1) its n2a hnode
                have hs2 := ih.2 rest baseUri basePath n2a ris n2b hrest
                constructor
                · simp [collectUidsList_append, collectUidsList, collectUids,
                    collectUidsFields, collectUidsArr, jsSet, jsFieldSet]
                  refine span_union n n2b (span_single gen n)
                    (span_union (n + 1) n2b hs1.1 hs2.1 (Or.inl (le_refl n2a))
                      (le_refl _) (by omega) (by omega) (le_refl _))
                    (Or.inl (by omega)) (le_refl n) (by omega) (by omega) (le_refl _)
                · omega
          · rw [if_neg hc2] at h
            simp only [] at h
            rcases hrest : transformRamlEntries gen fuel rest baseUri basePath n
              with e | ⟨ris, n2b⟩
            · rw [hrest] at h
              exact Except.noConfusion h
            · rw [hrest] at h
              simp only [Except.ok.injEq, Prod.mk.injEq] at h
              obtain ⟨h1, h2⟩ := h
              subst h1; subst h2
              exact ih.2 rest baseUri basePath n ris n2b hrest

theorem parseRamlCollection_span (gen : Nat → String) (data : JsVal) (n : Nat)
    (col : JsVal) (nf : Nat)
    (h : parseRamlCollection gen data n = .ok (col, nf)) :
    UidSpan gen n nf (collectUids col) := by
  unfold parseRamlCollection at h
  split at h
  · exact Except.noConfusion h
  · simp only [uuid] at h
    rcases hnode : transformRamlNode gen (jsSize data) data
        (jsOrV (jsProp data "baseUri") (.str "\x7b\x7bbaseUri\x7d\x7d")) "" (n + 1)
      with e | ⟨items, n2⟩
    · rw [hnode] at h
      exact Except.noConfusion h
    · rw [hnode] at h
      simp only [Except.ok.injEq, Prod.mk.injEq] at h
      obtain ⟨h1, h2⟩ := h
      subst h1; subst h2
      have hs := (transformRaml_span gen (jsSize data)).1 data
        (jsOrV (jsProp data "baseUri") (.str "\x7b\x7bbaseUri\x7d\x7d")) "" (n + 1)
        items n2 hnode
      simp [collectUids, collectUidsFields, collectUidsArr]
      refine span_union n n2 (span_single gen n) hs.1 (Or.inl (by omega))
        (le_refl n) (by omega) (by omega) (le_refl _)

/-- C3: for any collection produced by parseRamlCollection, all uid values
occurring anywhere in the tree (collection, folders, request items,
header/param/var fields) are pairwise distinct, provided the external uid
generator is injective (returns a fresh value on each call). -/
theorem c3_uids_pairwise (gen : Nat → String) (hg : Function.Injective gen)
    (data : JsVal) (n : Nat) (col : JsVal) (nf : Nat)
    (h : parseRamlCollection gen data n = .ok (col, nf)) :
    (collectUids col).Pairwise (· ≠ ·) := by
  obtain ⟨ixs, he, hn, hb⟩ := parseRamlCollection_span gen data n col nf h
  rw [he]
  have hinj : Function.Injective (fun i => JsVal.str (gen i)) := by
    intro a b hab
    simp only [JsVal.str.injEq] at hab
    exact hg hab
  exact hn.map hinj

def c3Data : JsVal := .obj [("/pets", .obj [("get", .obj [])])]

def c3Col : JsVal := .obj
  [("name", .str ""), ("uid", .str ""), ("version", .str "1"),
   ("items", .arr
     [.obj [("uid", .str "u"), ("name", .str " pets"), ("type", .str "folder"),
       ("items", .arr
         [.obj [("uid", .str "uu"), ("name", .str "GET pets"),
           ("type", .str "http-request"),
           ("request", .obj
             [("url", .str "\x7b\x7bbaseUri\x7d\x7d/pets"),
              ("method", .str "GET"),
              ("auth", .obj [("mode", .str "none"), ("basic", .null),
                ("bearer", .null), ("digest", .null)]),
              ("headers", .arr []), ("params", .arr []),
              ("vars", .obj [("req", .arr [])]),
              ("body", .obj [("mode", .str "none"), ("json", .null),
                ("text", .null), ("xml", .null), ("formUrlEncoded", .arr []),
                ("multipartForm", .arr [])]),
              ("docs", .str "")])]])]]),
   ("environments", .arr [])]

/-- C3 witness: the distinctness realised on a concrete one-resource
document with the replicate-character generator. -/
theorem c3_witness :
    parseRamlCollection sampleGen c3Data 0 = .ok (c3Col, 3) ∧
    (collectUids c3Col).Pairwise (· ≠ ·) :=
  ⟨by decide,
   c3_uids_pairwise sampleGen sampleGen_injective c3Data 0 c3Col 3 (by decide)⟩
